import Mathlib

/-!
Verification of the DeSoto title-chain extraction core
(`src/gistax/desoto/services/title_chain.py`).

The development shallowly embeds the parsing-relevant functions of the
source module: dates are modelled as proleptic-Gregorian triples whose
chronological order is taken through `toOrdinal` (matching CPython
`datetime.toordinal`), Python strings are modelled over `List Char` with
explicit re-implementations of `str.split`, `str.strip`, `str.find`,
slicing, `int()` parsing, and the small fragment of `re` that the module
uses (a backtracking matcher covering the two record patterns
and its skip patterns).  Python exceptions are embedded explicitly:
`int()` failures and out-of-range `datetime()` arguments raise
`ValueError`, which `parse_date` catches (`Option`), while `datetime()`
arguments beyond the C-int range raise `OverflowError`, which nothing
catches, so the parsing pipeline returns in an `Except PyErr` channel
that propagates it; every embedded function is a total Lean function.
-/

/-! ## Calendar model (CPython `datetime.date`) -/

/-- Gregorian leap-year test, as in CPython `calendar.isleap`. -/
def isLeap (y : Int) : Bool :=
  y % 4 == 0 && (y % 100 != 0 || y % 400 == 0)

/-- Days in a month of a given year (CPython `calendar.monthrange`). -/
def daysInMonth (y m : Int) : Int :=
  if m == 2 then (if isLeap y then 29 else 28)
  else if m == 4 || m == 6 || m == 9 || m == 11 then 30
  else 31

/-- Days in the months strictly before month `m` of year `y`. -/
def daysBeforeMonth (y m : Int) : Int :=
  (if m ≤ 1 then 0
   else if m == 2 then 31
   else if m == 3 then 59
   else if m == 4 then 90
   else if m == 5 then 120
   else if m == 6 then 151
   else if m == 7 then 181
   else if m == 8 then 212
   else if m == 9 then 243
   else if m == 10 then 273
   else if m == 11 then 304
   else 334)
  + (if 2 < m && isLeap y then 1 else 0)

/-- A `datetime.datetime` value (time-of-day parts are never used by the
source module, so only the date triple is modelled). -/
structure Datetime where
  year : Int
  month : Int
  day : Int
deriving DecidableEq, Repr

/-- Bounds accepted by the CPython `datetime` constructor. -/
def dateOkB (y m d : Int) : Bool :=
  1 ≤ y && y ≤ 9999 && 1 ≤ m && m ≤ 12 && 1 ≤ d && d ≤ daysInMonth y m

/-- The Python exception kinds the module's date path can produce:
`ValueError` (together with the never-raised `IndexError`, caught by
`parse_date`) and `OverflowError` (not caught by anything). -/
inductive PyErr where
  | valueError : PyErr
  | overflowError : PyErr
deriving DecidableEq, Repr

instance {ε α : Type} [DecidableEq ε] [DecidableEq α] :
    DecidableEq (Except ε α) := fun x y =>
  match x, y with
  | .ok a, .ok b =>
    if h : a = b then .isTrue (h ▸ rfl)
    else .isFalse (fun he => h (Except.ok.inj he))
  | .error a, .error b =>
    if h : a = b then .isTrue (h ▸ rfl)
    else .isFalse (fun he => h (Except.error.inj he))
  | .ok _, .error _ => .isFalse (fun he => Except.noConfusion he)
  | .error _, .ok _ => .isFalse (fun he => Except.noConfusion he)

/-- Whether an integer fits a C `int`, the argument type CPython
converts `datetime()` arguments into before validating them. -/
def fitsCInt (n : Int) : Bool :=
  -2147483648 ≤ n && n ≤ 2147483647

/-- The `datetime(year, month, day)` constructor: an argument outside
the C-int range fails conversion with `OverflowError` (conversion of
all three arguments precedes any range validation); in-range arguments
outside the calendar bounds raise `ValueError`. -/
def mkDatetime (y m d : Int) : Except PyErr Datetime :=
  if !(fitsCInt y && fitsCInt m && fitsCInt d) then .error .overflowError
  else if dateOkB y m d then .ok ⟨y, m, d⟩
  else .error .valueError

/-- CPython `date.toordinal`: day number in the proleptic Gregorian
calendar, with 0001-01-01 as day 1.  Chronological comparison of two
valid dates agrees with comparison of their ordinals. -/
def Datetime.toOrdinal (dt : Datetime) : Int :=
  365 * (dt.year - 1) + (dt.year - 1) / 4 - (dt.year - 1) / 100
    + (dt.year - 1) / 400 + daysBeforeMonth dt.year dt.month + dt.day

/-! ## Python string primitives -/

/-- ASCII whitespace stripped by `str.strip()` / skipped by `int()`. -/
def isPySpace (c : Char) : Bool :=
  c == ' ' || c == '\t' || c == '\n' || c == '\x0d' ||
  c == '\x0b' || c == '\x0c'

/-- `\w` of Python `re` (ASCII fragment): alphanumerics and underscore. -/
def isWordChar (c : Char) : Bool :=
  c.isAlphanum || c == '_'

/-- `str.strip()` on a character list. -/
def pyStripL (cs : List Char) : List Char :=
  ((cs.dropWhile isPySpace).reverse.dropWhile isPySpace).reverse

/-- `str.strip()`. -/
def pyStrip (s : String) : String :=
  ⟨pyStripL s.data⟩

/-- `str.split(sep)` for a one-character separator: keeps empty chunks,
and the empty string yields `[""]`, as in Python. -/
def splitOnChar (sep : Char) : List Char → List (List Char)
  | [] => [[]]
  | c :: cs =>
    match splitOnChar sep cs with
    | [] => [[c]]
    | g :: gs => if c == sep then [] :: g :: gs else (c :: g) :: gs

/-- `text.split('\n')` as a list of strings. -/
def pyLines (s : String) : List String :=
  (splitOnChar '\n' s.data).map (fun g => ⟨g⟩)

/-- Whether `needle` occurs as a contiguous run inside `hay`
(Python `needle in hay`). -/
def containsL : List Char → List Char → Bool
  | _, [] => false
  | needle, c :: cs => needle.isPrefixOf (c :: cs) || containsL needle cs

/-- Python `needle in hay` on strings (empty needle is always found). -/
def pyContains (needle hay : String) : Bool :=
  needle.data.isEmpty || containsL needle.data hay.data

/-- Helper for `str.find`: index of the first occurrence from the front,
counting from `i`. -/
def pyFindAux (needle : List Char) (i : Int) : List Char → Int
  | [] => if needle.isEmpty then i else -1
  | c :: cs => if needle.isPrefixOf (c :: cs) then i else pyFindAux needle (i + 1) cs

/-- `hay.find(needle)`: first index of occurrence, `-1` if absent. -/
def pyFind (needle hay : String) : Int :=
  pyFindAux needle.data 0 hay.data

/-- Python slice `s[a:b]` (negative indices count from the end; the
result is empty when the normalized start is at or past the end). -/
def pySlice (s : String) (a b : Int) : String :=
  let n : Int := s.data.length
  let a' : Int := if a < 0 then max 0 (n + a) else min a n
  let b' : Int := if b < 0 then max 0 (n + b) else min b n
  ⟨(s.data.take b'.toNat).drop a'.toNat⟩

/-- Python slice `s[a:]`. -/
def pySliceFrom (s : String) (a : Int) : String :=
  pySlice s a (s.data.length : Int)

/-- Digit run accepted by `int()` after the optional sign and a first
digit: more digits, with single underscores allowed between digits
(Python 3.6+).  The flag records that the previous character was an
underscore, so the next one must be a digit. -/
def pyDigitsRun (acc : Nat) (expectDigit : Bool) : List Char → Option Nat
  | [] => if expectDigit then none else some acc
  | c :: cs =>
    if c.isDigit then pyDigitsRun (10 * acc + (c.toNat - 48)) false cs
    else if !expectDigit && c == '_' then pyDigitsRun acc true cs
    else none

/-- Digit run accepted by `int()`: at least one leading digit. -/
def pyDigits : List Char → Option Nat
  | [] => none
  | c :: cs => if c.isDigit then pyDigitsRun (c.toNat - 48) false cs else none

/-- Python `int(s)` for a decimal string: strips whitespace, accepts an
optional sign, then a digit run; `ValueError` is modelled as `none`. -/
def pyInt? (s : String) : Option Int :=
  match pyStripL s.data with
  | '+' :: rest => (pyDigits rest).map (fun n => (n : Int))
  | '-' :: rest => (pyDigits rest).map (fun n => -(n : Int))
  | rest => (pyDigits rest).map (fun n => (n : Int))

/-- Python space-join over a list of strings. -/
def joinSp : List String → String
  | [] => ""
  | [x] => x
  | x :: xs => x ++ " " ++ joinSp xs

/-- `Char.toUpper` (ASCII), written to be kernel-reducible. -/
def pyCharUpper (c : Char) : Char :=
  if 97 ≤ c.toNat && c.toNat ≤ 122 then Char.ofNat (c.toNat - 32) else c

/-- `str.upper()` (ASCII model). -/
def pyUpper (s : String) : String :=
  ⟨s.data.map pyCharUpper⟩

/-- `combined.split()` — Python whitespace split discarding empties. -/
def pyWhitespaceSplit (s : String) : List String :=
  ((s.data.splitOnP isPySpace).map (fun g => (⟨g⟩ : String))).filter
    (fun t => t ≠ "")

example : pyInt? "  12" = some 12 := by decide
example : pyInt? "+1_2" = some 12 := by decide
example : pyInt? "1_" = none := by decide
example : pyInt? "" = none := by decide
example : pyInt? "-03" = some (-3) := by decide
example : pyFind "GRANTOR" "FILED GRANTOR" = 6 := by decide
example : pySlice "abcdef" 2 (-1) = "cde" := by decide
example : pySlice "abcdef" 2 (-10) = "" := by decide
example : pyStrip "  ab c  " = "ab c" := by decide
example : pyContains "bc" "abcd" = true := by decide
example : pyWhitespaceSplit " a bb  c " = ["a", "bb", "c"] := by decide
example : (⟨2025, 1, 10⟩ : Datetime).toOrdinal = 739261 := by decide
example : (⟨2023, 1, 11⟩ : Datetime).toOrdinal = 739261 - 730 := by decide

example : (⟨2024, 1, 10⟩ : Datetime).toOrdinal = 738895 := by decide
example : (⟨2023, 6, 1⟩ : Datetime).toOrdinal = 738672 := by decide
example : (⟨2021, 3, 1⟩ : Datetime).toOrdinal = 737850 := by decide
example : (⟨2024, 3, 1⟩ : Datetime).toOrdinal = 738946 := by decide
example : (⟨2020, 1, 1⟩ : Datetime).toOrdinal = 737425 := by decide

/-! ## The record type and leaf helpers of `title_chain.py` -/

/-- The `ChainEntry` dataclass of the source module. -/
structure ChainEntry where
  date : Datetime
  date_string : String
  grantor : String
  grantee : String
  instrument : String
  book_page : String
  remark : String := ""
  is_vesting : Bool := false
  line : String := ""
deriving DecidableEq, Repr

/-- `parse_date`: split on the slash character, require three parts,
convert each with `int()`, build a `datetime(year, month, day)`.  The
`except (ValueError, IndexError)` clause turns a failed `int()` or an
out-of-range `datetime()` into `None` (`Except.ok none`), but an
`OverflowError` from `datetime()` is not in that tuple and propagates
to the caller. -/
def parse_date (date_str : String) : Except PyErr (Option Datetime) :=
  match (splitOnChar '/' date_str.data).map (fun g => (⟨g⟩ : String)) with
  | [p0, p1, p2] =>
    match pyInt? p0, pyInt? p1, pyInt? p2 with
    | some month, some day, some year =>
      match mkDatetime year month day with
      | .ok dt => .ok (some dt)
      | .error .valueError => .ok none
      | .error .overflowError => .error .overflowError
    | _, _, _ => .ok none
  | _ => .ok none

/-- The `vesting_deed_types` list of `is_vesting_deed`. -/
def vesting_deed_types : List String :=
  ["WARRANTY DEED",
   "SPECIAL WARRANTY DEED",
   "QUITCLAIM DEED",
   "DEED",
   "GRANT DEED",
   "BARGAIN AND SALE DEED",
   "ASSUMPTION WARRANTY DEED",
   "CORRECTION DEED",
   "EXECUTOR\x27S DEED",
   "ADMINISTRATOR\x27S DEED",
   "TRUSTEE\x27S DEED",
   "SHERIFF\x27S DEED",
   "TAX DEED",
   "COMMISSIONER\x27S DEED",
   "SPECIAL DEED",
   "BENEFICIARY DEED"]

/-- The `non_vesting_types` list of `is_vesting_deed`. -/
def non_vesting_types : List String :=
  ["DEED OF TRUST",
   "MORTGAGE",
   "ASSIGNMENT OF LEASES",
   "ASSIGNMENT OF RENTS",
   "ASSIGNMENT OF INCOME",
   "ASSIGNMENT OF LEASES, RENTS AND INCOME",
   "ASSIGNMENT OF LEASES, REENTS AND INCOME",
   "UCC FINANCING STATEMENT",
   "SATISFACTION",
   "RELEASE",
   "SUBORDINATION",
   "MODIFICATION",
   "EXTENSION",
   "LIS PENDENS",
   "NOTICE OF DEFAULT",
   "AFFIDAVIT",
   "EASEMENT",
   "RIGHT OF WAY"]

/-- `is_vesting_deed`: uppercase and strip, test the non-vesting keyword
list first (any substring hit returns `False`), then the vesting keyword
list (any substring hit returns `True`), default `False`. -/
def is_vesting_deed (instrument : String) : Bool :=
  let upper_instrument := pyStrip (pyUpper instrument)
  if non_vesting_types.any (fun k => pyContains k upper_instrument) then false
  else if vesting_deed_types.any (fun k => pyContains k upper_instrument) then true
  else false

example : is_vesting_deed "DEED OF TRUST" = false := by decide
example : is_vesting_deed " Warranty Deed " = true := by decide
example : is_vesting_deed "LEASE" = false := by decide

/-! ## Text normalizer (`preprocess_chain_text`) -/

/-- The anchored `re.match` test for a leading two-digit/two-digit/four-digit date. -/
def startsWithDateL : List Char → Bool
  | c1 :: c2 :: s1 :: c3 :: c4 :: s2 :: c5 :: c6 :: c7 :: c8 :: _ =>
    c1.isDigit && c2.isDigit && s1 == '/' && c3.isDigit && c4.isDigit &&
    s2 == '/' && c5.isDigit && c6.isDigit && c7.isDigit && c8.isDigit
  | _ => false

/-- Date-at-start test on a string. -/
def startsWithDate (s : String) : Bool :=
  startsWithDateL s.data

/-- The stop test of the inner loop of `preprocess_chain_text`, applied
to an already stripped line. -/
def isStopLine (next_line : String) : Bool :=
  startsWithDate next_line ||
  next_line == "" ||
  pyContains "****" next_line ||
  pyContains "FILED" next_line ||
  pyContains "NAME CERTIFICATION" next_line ||
  pyContains "SELLER" next_line ||
  pyContains "BUYER" next_line ||
  pyContains "Information to follow" next_line

/-- The inner absorption loop of `preprocess_chain_text`: starting from
the current `combined` text, keep appending stripped continuation lines
until a stop line (or the end) is reached; returns the combined entry
and the unconsumed lines. -/
def absorbLines (combined : String) : List String → String × List String
  | [] => (combined, [])
  | l :: ls =>
    let next_line := pyStrip l
    if isStopLine next_line then (combined, l :: ls)
    else absorbLines (combined ++ " " ++ next_line) ls

/-- The loop of `preprocess_chain_text` over the line list, written as a
structural single pass.  The state is `none` outside a multi-line entry
and `some combined` while absorbing continuation lines; at a stop line
the handling that the outer loop would give that line is inlined (strip
it, then either begin a new combined entry or emit it verbatim), exactly
as the two `while` loops of the source interleave. -/
def ppGo : Option String → List String → List String
  | none, [] => []
  | some combined, [] => [combined]
  | none, l :: ls =>
    let line := pyStrip l
    if startsWithDate line then ppGo (some line) ls
    else line :: ppGo none ls
  | some combined, l :: ls =>
    let next_line := pyStrip l
    if isStopLine next_line then
      combined ::
        (if startsWithDate next_line then ppGo (some next_line) ls
         else next_line :: ppGo none ls)
    else ppGo (some (combined ++ " " ++ next_line)) ls

/-- The processed line list of `preprocess_chain_text`. -/
def preprocessLines (lines : List String) : List String :=
  ppGo none lines

/-- Newline-join over a list of strings. -/
def joinNl : List String → String
  | [] => ""
  | [x] => x
  | x :: xs => x ++ "\n" ++ joinNl xs

/-- `preprocess_chain_text`: join multi-line entries, then re-join with
newlines. -/
def preprocess_chain_text (text : String) : String :=
  joinNl (preprocessLines (pyLines text))

example :
    preprocess_chain_text "01/02/2023 A\n  B \nFILED x\nC" =
      "01/02/2023 A B\nFILED x\nC" := by decide

/-! ## A backtracking matcher for the `re` fragment used by the module

All patterns of the module are matched with `re.IGNORECASE`, so literal
text compares case-insensitively.  Repetition only ever applies to
single-character classes in these patterns, which keeps the matcher
structural.  Alternatives are tried left to right and greedy/lazy
repetition longest/shortest first, giving the same match and capture
preference order as CPython `re`. -/

/-- Capture list: group index paired with the captured characters. -/
abbrev Caps := List (Nat × List Char)

/-- Case-insensitive character comparison (ASCII, `re.IGNORECASE`). -/
def charEqCI (c d : Char) : Bool :=
  pyCharUpper c == pyCharUpper d

/-- Match a case-insensitive literal, returning the rest of the input. -/
def litCI : List Char → List Char → Option (List Char)
  | [], s => some s
  | _ :: _, [] => none
  | c :: cs, d :: ds => if charEqCI c d then litCI cs ds else none

/-- Pattern syntax: classes, case-insensitive literals, sequencing,
alternation, greedy/lazy class repetition, optional groups, capturing
groups, and the end anchor. -/
inductive RE where
  | cls (p : Char → Bool) : RE
  | lit (s : List Char) : RE
  | seq (a b : RE) : RE
  | alt (a b : RE) : RE
  | rep (p : Char → Bool) (lazy atLeastOne : Bool) : RE
  | opt (a : RE) : RE
  | grp (i : Nat) (a : RE) : RE
  | eos : RE

/-- Greedy class star: consume as much as possible, then give back. -/
def clsStarG (p : Char → Bool) (k : List Char → Option Caps) : List Char → Option Caps
  | [] => k []
  | c :: cs => (if p c then clsStarG p k cs else none) <|> k (c :: cs)

/-- Lazy class star: consume as little as possible. -/
def clsStarL (p : Char → Bool) (k : List Char → Option Caps) : List Char → Option Caps
  | [] => k []
  | c :: cs => k (c :: cs) <|> (if p c then clsStarL p k cs else none)

/-- The matcher, in continuation-passing style.  The continuation
receives the remaining input and the captures collected so far; the
first alternative (in preference order) whose continuation succeeds
wins, as in CPython backtracking. -/
def mrun : RE → List Char → Caps → (List Char → Caps → Option Caps) → Option Caps
  | .cls p, s, caps, k =>
    match s with
    | c :: cs => if p c then k cs caps else none
    | [] => none
  | .lit l, s, caps, k =>
    match litCI l s with
    | some rest => k rest caps
    | none => none
  | .seq a b, s, caps, k => mrun a s caps (fun s2 caps2 => mrun b s2 caps2 k)
  | .alt a b, s, caps, k => mrun a s caps k <|> mrun b s caps k
  | .rep p lz one, s, caps, k =>
    if one then
      match s with
      | c :: cs =>
        if p c then
          if lz then clsStarL p (fun s2 => k s2 caps) cs
          else clsStarG p (fun s2 => k s2 caps) cs
        else none
      | [] => none
    else
      if lz then clsStarL p (fun s2 => k s2 caps) s
      else clsStarG p (fun s2 => k s2 caps) s
  | .opt a, s, caps, k => mrun a s caps k <|> k s caps
  | .grp i a, s, caps, k =>
    mrun a s caps (fun s2 caps2 => k s2 ((i, s.take (s.length - s2.length)) :: caps2))
  | .eos, s, caps, k =>
    match s with
    | [] => k [] caps
    | _ :: _ => none

/-- Anchored match at the start of the input (Python `re.search` with a
pattern that begins with a caret, or `re.match`). -/
def mrunTop (re : RE) (s : List Char) : Option Caps :=
  mrun re s [] (fun _ caps => some caps)

/-- Unanchored `re.search` as a Boolean: try every start position. -/
def reSearchB (re : RE) : List Char → Bool
  | [] => (mrunTop re []).isSome
  | c :: cs => (mrunTop re (c :: cs)).isSome || reSearchB re cs

/-- Group text of a match, `none` for a group that did not participate
(Python `None`). -/
def capGroup (caps : Caps) (i : Nat) : Option String :=
  (caps.find? (fun g => g.1 == i)).map (fun g => (⟨g.2⟩ : String))

/-- Sequencing a list of fragments (empty list is the empty literal). -/
def reSeqL : List RE → RE
  | [] => .lit []
  | [r] => r
  | r :: rs => .seq r (reSeqL rs)

/-- Ordered alternation over literal words. -/
def reAltWords : List String → RE
  | [] => .lit []
  | [w] => .lit w.data
  | w :: ws => .alt (.lit w.data) (reAltWords ws)

/-- One digit (`\d`). -/
def reDig : RE := .cls Char.isDigit

/-- `.` (anything but a newline). -/
def dotP (c : Char) : Bool := c != '\n'

/-- Character class of `[\w\s]`. -/
def wordOrSpace (c : Char) : Bool := isWordChar c || isPySpace c

/-- `\s+`. -/
def spPlus : RE := .rep isPySpace false true

/-- `\s*`. -/
def spStar : RE := .rep isPySpace false false

/-- `\d+`. -/
def digPlus : RE := .rep Char.isDigit false true

/-- `(.+?)`, the lazy any-run. -/
def dotLazyPlus : RE := .rep dotP true true

/-- `.*`. -/
def dotStar : RE := .rep dotP false false

/-- The ten-character date core `\d{2}/\d{2}/\d{4}`. -/
def dateCore : RE :=
  reSeqL [reDig, reDig, .lit ['/'], reDig, reDig, .lit ['/'],
          reDig, reDig, reDig, reDig]

example : (mrunTop (reSeqL [.grp 1 dateCore, spPlus, .grp 2 dotLazyPlus, .eos])
    "01/02/2023 ab c".data).isSome = true := by decide
example : capGroup ((mrunTop (reSeqL [.grp 1 dateCore, spPlus, .grp 2 dotLazyPlus, .eos])
    "01/02/2023 ab c".data).getD []) 2 = some "ab c" := by decide

/-! ## Regex fallback parser (`parse_chain_text_regex_fallback`) -/

/-- The instrument keyword alternation inside the first record pattern. -/
def kwAlt : RE :=
  reAltWords ["DEED", "TRUST", "ASSIGNMENT", "MORTGAGE", "UCC",
              "SATISFACTION", "RELEASE", "SUBORDINATION", "MODIFICATION",
              "EXTENSION", "LIS PENDENS", "NOTICE", "AFFIDAVIT", "EASEMENT"]

/-- The first (generic) record pattern of the fallback parser, with its
six capturing groups: date, grantor, grantee, instrument, book-page and
optional remark. -/
def fallbackPattern1 : RE :=
  reSeqL
    [.grp 1 dateCore, spPlus,
     .grp 2 dotLazyPlus, spPlus,
     .grp 3 dotLazyPlus, spPlus,
     .grp 4 (.alt
       (reSeqL [.rep wordOrSpace false true, kwAlt, .rep wordOrSpace false false])
       (reSeqL [.lit ['P'], spPlus, digPlus, .lit ['-'], digPlus])),
     spPlus,
     .grp 5 (.alt
       (reSeqL [.opt (.cls Char.isAlpha), spStar, digPlus, .lit ['-'], digPlus])
       (reSeqL [.rep isWordChar false true, .lit ['-'], .rep isWordChar false true])),
     .opt (reSeqL [spPlus, .grp 6 dotStar]),
     .eos]

/-- The second (narrow) record pattern, with five capturing groups:
date, combined names, instrument literal, book-page, optional remark. -/
def fallbackPattern2 : RE :=
  reSeqL
    [.grp 1 dateCore, spPlus,
     .grp 2 dotLazyPlus, spPlus,
     .grp 3 (reAltWords ["WARRANTY DEED", "DEED OF TRUST", "QUITCLAIM DEED",
                         "SPECIAL WARRANTY DEED", "DEED"]),
     spPlus,
     .grp 4 (reSeqL [digPlus, .lit ['-'], digPlus]),
     .opt (reSeqL [spPlus, .grp 5 dotStar]),
     .eos]

/-- The `skip_patterns` list: each entry records whether the pattern is
anchored at the start (a leading caret) together with its body. -/
def skipPatterns : List (Bool × RE) :=
  [(false, reSeqL [.lit "FILED".data, dotStar, .lit "GRANTOR".data, dotStar,
                   .lit "GRANTEE".data, dotStar, .lit "INSTRUMENT".data]),
   (true, .rep (fun c => c == '*') false true),
   (false, .lit "CHAIN OF TITLE".data),
   (false, .lit "File No.".data),
   (false, .lit "NAME CERTIFICATION".data),
   (false, reSeqL [.lit "SELLER".data, spPlus, dotStar, spPlus, .lit "BUYER".data]),
   (false, .lit "OWNER:".data),
   (false, .lit "For further information".data),
   (false, .lit "Certified to:".data),
   (false, .lit "New Certification Date:".data),
   (false, reSeqL [.lit "By:".data, dotStar]),
   (false, .lit "INFORMATION TO FOLLOW".data),
   (true, reSeqL [spStar, .eos])]

/-- `any(re.search(pattern, line, re.IGNORECASE) for pattern in
skip_patterns)`. -/
def fallbackSkips (line : String) : Bool :=
  skipPatterns.any (fun pr =>
    if pr.1 then (mrunTop pr.2 line.data).isSome else reSearchB pr.2 line.data)

/-- Build the record from six captured groups (first pattern); an
exception from `parse_date` propagates. -/
def fallbackEntry6 (line : String) (caps : Caps) : Except PyErr (Option ChainEntry) :=
  let date_str := (capGroup caps 1).getD ""
  let grantor := (capGroup caps 2).getD ""
  let grantee := (capGroup caps 3).getD ""
  let instrument := (capGroup caps 4).getD ""
  let book_page := (capGroup caps 5).getD ""
  let remark := capGroup caps 6
  match parse_date date_str with
  | .error e => .error e
  | .ok none => .ok none
  | .ok (some parsed_date) =>
    .ok (some
      { date := parsed_date
        date_string := date_str
        grantor := pyStrip grantor
        grantee := pyStrip grantee
        instrument := pyStrip instrument
        book_page := pyStrip book_page
        remark := match remark with | some r => pyStrip r | none => ""
        is_vesting := is_vesting_deed (pyStrip instrument)
        line := line })

/-- Build the record from five captured groups (second pattern): the
combined grantor/grantee run is split in half by word count; an
exception from `parse_date` propagates. -/
def fallbackEntry5 (line : String) (caps : Caps) : Except PyErr (Option ChainEntry) :=
  let date_str := (capGroup caps 1).getD ""
  let combined_names := (capGroup caps 2).getD ""
  let instrument := (capGroup caps 3).getD ""
  let book_page := (capGroup caps 4).getD ""
  let remark := capGroup caps 5
  let name_parts := pyWhitespaceSplit combined_names
  let grantor :=
    if name_parts.length ≥ 2 then joinSp (name_parts.take (name_parts.length / 2))
    else combined_names
  let grantee :=
    if name_parts.length ≥ 2 then joinSp (name_parts.drop (name_parts.length / 2))
    else "UNKNOWN"
  match parse_date date_str with
  | .error e => .error e
  | .ok none => .ok none
  | .ok (some parsed_date) =>
    .ok (some
      { date := parsed_date
        date_string := date_str
        grantor := pyStrip grantor
        grantee := pyStrip grantee
        instrument := pyStrip instrument
        book_page := pyStrip book_page
        remark := match remark with | some r => pyStrip r | none => ""
        is_vesting := is_vesting_deed (pyStrip instrument)
        line := line })

/-- The per-line body of the fallback loop: strip, drop lines that hit
the skip list, try the two record patterns in order, and build the
record; an unparseable date drops the candidate. -/
def fallbackLineEntry (rawLine : String) : Except PyErr (Option ChainEntry) :=
  let line := pyStrip rawLine
  if fallbackSkips line then .ok none
  else
    match mrunTop fallbackPattern1 line.data with
    | some caps => fallbackEntry6 line caps
    | none =>
      match mrunTop fallbackPattern2 line.data with
      | some caps => fallbackEntry5 line caps
      | none => .ok none

/-- The line loop of the fallback parser: collect at most one record
per line; an exception raised mid-loop propagates, discarding the
records accumulated so far. -/
def fallbackLoop : List String → Except PyErr (List ChainEntry)
  | [] => .ok []
  | l :: ls =>
    match fallbackLineEntry l with
    | .error e => .error e
    | .ok none => fallbackLoop ls
    | .ok (some entry) =>
      match fallbackLoop ls with
      | .error e => .error e
      | .ok entries => .ok (entry :: entries)

/-- `parse_chain_text_regex_fallback`: preprocess, split into lines, and
collect at most one record per line. -/
def parse_chain_text_regex_fallback (text : String) : Except PyErr (List ChainEntry) :=
  fallbackLoop (pyLines (preprocess_chain_text text))

/-! ## Column table parser (`parse_chain_text`, `parse_table_entry`) -/

/-- The `col_positions` dictionary built from the header line. -/
structure ColPositions where
  grantor : Int
  grantee : Int
  instrument : Int
  dated : Int
  recording : Int
deriving DecidableEq, Repr

/-- The header scan of `parse_chain_text`: first line containing all of
GRANTOR, GRANTEE and INSTRUMENT, with the character offsets that
`str.find` reports (`-1` for an absent column name). -/
def findHeaderAux (i : Nat) : List String → Option (Nat × ColPositions)
  | [] => none
  | line :: rest =>
    if pyContains "GRANTOR" line && pyContains "GRANTEE" line &&
        pyContains "INSTRUMENT" line then
      some (i, { grantor := pyFind "GRANTOR" line
                 grantee := pyFind "GRANTEE" line
                 instrument := pyFind "INSTRUMENT" line
                 dated := pyFind "DATED" line
                 recording := pyFind "RECORDING" line })
    else findHeaderAux (i + 1) rest

/-- The anchored `re.match` test for a book-page shape
(one word run, a hyphen, another word run). -/
def bookPageMatch (s : String) : Bool :=
  !(s.data.takeWhile isWordChar).isEmpty &&
    (match s.data.dropWhile isWordChar with
     | '-' :: r2 => !(r2.takeWhile isWordChar).isEmpty
     | _ => false)

/-- Accumulator of the per-line field extraction of `parse_table_entry`. -/
structure TEAcc where
  grantor_parts : List String
  grantee_parts : List String
  instrument_parts : List String
  date_str : String
  book_page : String
deriving DecidableEq, Repr

/-- One line of the extraction loop of `parse_table_entry`: slice the
grantor/grantee/instrument column spans (collecting non-empty text), and
take the first date-shaped text of the DATED span and the first
book-page-shaped text of the RECORDING span. -/
def teLine (cols : ColPositions) (acc : TEAcc) (line : String) : TEAcc :=
  let acc :=
    if cols.grantor ≥ 0 then
      let text := pyStrip (pySlice line cols.grantor cols.grantee)
      if text ≠ "" then { acc with grantor_parts := acc.grantor_parts ++ [text] }
      else acc
    else acc
  let acc :=
    if cols.grantee ≥ 0 then
      let text := pyStrip (pySlice line cols.grantee cols.instrument)
      if text ≠ "" then { acc with grantee_parts := acc.grantee_parts ++ [text] }
      else acc
    else acc
  let acc :=
    if cols.instrument ≥ 0 then
      let text := pyStrip (pySlice line cols.instrument cols.dated)
      if text ≠ "" then { acc with instrument_parts := acc.instrument_parts ++ [text] }
      else acc
    else acc
  let acc :=
    if acc.date_str == "" && cols.dated ≥ 0 then
      let text := pyStrip (pySlice line cols.dated cols.recording)
      if text ≠ "" && startsWithDate text then { acc with date_str := text }
      else acc
    else acc
  let acc :=
    if acc.book_page == "" && cols.recording ≥ 0 then
      let text := pyStrip (pySliceFrom line cols.recording)
      if text ≠ "" && bookPageMatch text then { acc with book_page := text }
      else acc
    else acc
  acc

/-- `parse_table_entry`: run the extraction loop over the accumulated
lines, join the multi-line fields, and emit a record only when a date, a
book-page and at least one of grantor/grantee are present and the date
parses. -/
def parse_table_entry (lines : List String) (col_positions : ColPositions) :
    Except PyErr (Option ChainEntry) :=
  match lines with
  | [] => .ok none
  | _ :: _ =>
    let st := lines.foldl (teLine col_positions)
      { grantor_parts := [], grantee_parts := [], instrument_parts := []
        date_str := "", book_page := "" }
    let grantor := pyStrip (joinSp st.grantor_parts)
    let grantee := pyStrip (joinSp st.grantee_parts)
    let instrument := pyStrip (joinSp st.instrument_parts)
    if st.date_str ≠ "" && (grantor ≠ "" || grantee ≠ "") && st.book_page ≠ "" then
      match parse_date st.date_str with
      | .error e => .error e
      | .ok none => .ok none
      | .ok (some parsed_date) =>
        .ok (some
          { date := parsed_date
            date_string := st.date_str
            grantor := grantor
            grantee := grantee
            instrument := instrument
            book_page := st.book_page
            remark := ""
            is_vesting := is_vesting_deed instrument
            line := joinSp lines })
    else .ok none

/-- The separator test of the table loop. -/
def isSepLine (line : String) : Bool :=
  pyContains "---" line || pyContains "***" line

/-- Flush the accumulated entry lines at an entry boundary; an
exception from the entry parser propagates. -/
def flushEntry (cur : List String) (cols : ColPositions) :
    Except PyErr (List ChainEntry) :=
  if cur.isEmpty then .ok []
  else
    match parse_table_entry cur cols with
    | .error e => .error e
    | .ok entry => .ok entry.toList

/-- The table-data loop of `parse_chain_text`: the first separator line
starts the table, a blank line ends the current entry, a second
separator line flushes and ends the table, and reaching the end of the
input discards any still-accumulated entry lines. -/
def tableLoop (cols : ColPositions) : Bool → List String → List String →
    Except PyErr (List ChainEntry)
  | _, _, [] => .ok []
  | in_table, cur, line :: rest =>
    if isSepLine line then
      if !in_table then tableLoop cols true cur rest
      else flushEntry cur cols
    else if !in_table then tableLoop cols false cur rest
    else if pyStrip line == "" then
      match flushEntry cur cols with
      | .error e => .error e
      | .ok entries =>
        match tableLoop cols true [] rest with
        | .error e => .error e
        | .ok more => .ok (entries ++ more)
    else tableLoop cols true (cur ++ [line]) rest

/-- `parse_chain_text`: find the header line and run the column table
loop after it; fall back to the regex parser when no header is found —
or, through the falsiness of the integer 0, when the header is the very
first line (`if not header_idx or not col_positions`, where the
positions dictionary is never empty). -/
def parse_chain_text (text : String) : Except PyErr (List ChainEntry) :=
  let lines := pyLines text
  match findHeaderAux 0 lines with
  | none => parse_chain_text_regex_fallback text
  | some (header_idx, col_positions) =>
    if header_idx == 0 then parse_chain_text_regex_fallback text
    else tableLoop col_positions false [] (lines.drop (header_idx + 1))

/-! ## Chain window selector (`get_24_month_chain`) -/

/-- The sort key of the selector (chronological order via ordinals). -/
def entryKey (e : ChainEntry) : Int :=
  e.date.toOrdinal

/-- The descending-by-date order used by `sort(key=..., reverse=True)`. -/
def chainDescRel (a b : ChainEntry) : Prop :=
  entryKey b ≤ entryKey a

instance : DecidableRel chainDescRel :=
  fun a b => inferInstanceAs (Decidable (entryKey b ≤ entryKey a))

instance : IsTotal ChainEntry chainDescRel :=
  ⟨fun a b => le_total (entryKey b) (entryKey a)⟩

instance : IsTrans ChainEntry chainDescRel :=
  ⟨fun _ _ _ h1 h2 => le_trans h2 h1⟩

/-- A stable descending-by-date sort (CPython list.sort is stable). -/
def sortByDateDesc (l : List ChainEntry) : List ChainEntry :=
  List.insertionSort chainDescRel l

/-- `min(deed.date for deed in result)` over the dates of a non-empty
list (the selector never takes the minimum of an empty list). -/
def minDate : List ChainEntry → Int
  | [] => 0
  | e :: es => es.foldl (fun m x => min m (entryKey x)) (entryKey e)

/-- The greedy accumulation loop of `get_24_month_chain`: append the
next-newest deed and stop as soon as the minimum accumulated date
reaches the cutoff. -/
def chainLoop (cutoff : Int) (result : List ChainEntry) :
    List ChainEntry → List ChainEntry
  | [] => result
  | deed :: rest =>
    let result2 := result ++ [deed]
    if minDate result2 ≤ cutoff then result2 else chainLoop cutoff result2 rest

/-- `get_24_month_chain` with an explicit processing date (the source
defaults it to the wall clock, which a caller supplies here). -/
def get_24_month_chain (entries : List ChainEntry) (processing_date : Datetime) :
    List ChainEntry :=
  let cutoff_date := processing_date.toOrdinal - 730
  let vesting_deeds := sortByDateDesc (entries.filter (fun e => e.is_vesting))
  match vesting_deeds with
  | [] => []
  | v0 :: rest =>
    let result :=
      if cutoff_date ≤ entryKey v0 then chainLoop cutoff_date [v0] rest
      else [v0]
    sortByDateDesc result

/-! ## Cell-matrix table parser (matrix mode)

The repository sources contain no cell-matrix parser and no
`extract_chain_from_tables` entry point; the definitions of this section
are modelled from the specification alone (its sections 4.4 and 6). -/

/-- Modelled from the spec: collapse internal newlines of a cell to
spaces (part of the header and data-cell normalization of the missing
cell-matrix table parser). -/
def collapseNl (s : String) : String :=
  ⟨s.data.map (fun c => if c == '\n' then ' ' else c)⟩

/-- Modelled from the spec: header-cell normalization of the missing
cell-matrix table parser — uppercase, newlines collapsed to spaces,
`None` cells read as empty text. -/
def normHeaderCell (c : Option String) : String :=
  pyUpper (collapseNl (c.getD ""))

/-- Modelled from the spec: data-cell normalization of the missing
cell-matrix table parser — blank/`None` cells become empty text,
internal newlines collapsed to spaces. -/
def normDataCell (c : Option String) : String :=
  collapseNl (c.getD "")

/-- Modelled from the spec: the five resolved column indices of the
missing cell-matrix table parser. -/
structure MatrixCols where
  dated : Nat
  recording : Nat
  grantor : Nat
  grantee : Nat
  instrument : Nat
deriving DecidableEq, Repr

/-- Modelled from the spec: index of the first header cell equal to the
first of the candidate column names that is present at all. -/
def lookupCol (headers : List String) : List String → Option Nat
  | [] => none
  | n :: ns =>
    match headers.findIdx? (fun h => h == n) with
    | some i => some i
    | none => lookupCol headers ns

/-- Modelled from the spec: resolve, independently, a date-like column,
a recording-like column, and the required GRANTOR / GRANTEE / INSTRUMENT
columns of the missing cell-matrix table parser; `none` when any of the
five is unresolved. -/
def resolveCols (headers : List String) : Option MatrixCols :=
  match lookupCol headers ["DATED", "DATE", "FILED"],
        lookupCol headers ["RECORDING", "BOOK-PAGE", "BOOK_PAGE", "BOOK/PAGE", "BK/PG"],
        lookupCol headers ["GRANTOR"],
        lookupCol headers ["GRANTEE"],
        lookupCol headers ["INSTRUMENT"] with
  | some d, some r, some g1, some g2, some ins =>
    some { dated := d, recording := r, grantor := g1, grantee := g2, instrument := ins }
  | _, _, _, _, _ => none

/-- Modelled from the spec: the date-parsing step of the missing
cell-matrix table parser.  Section 4.4 says only that a record is
emitted when the date string parses and the candidate is dropped
otherwise; no exception channel appears in the spec for this parser, so
a failed parse of any kind drops the row. -/
def parse_date_spec (s : String) : Option Datetime :=
  match parse_date s with
  | .ok r => r
  | .error _ => none

/-- Modelled from the spec: one data row of the missing cell-matrix
table parser — rows whose cell count differs from the header are
skipped, and a record is emitted only if date, recording reference and
at least one of grantor/grantee are non-empty and the date parses. -/
def rowEntry (cols : MatrixCols) (headerLen : Nat) (row : List (Option String)) :
    Option ChainEntry :=
  if row.length == headerLen then
    let date_str := normDataCell (row.getD cols.dated none)
    let book_page := normDataCell (row.getD cols.recording none)
    let grantor := normDataCell (row.getD cols.grantor none)
    let grantee := normDataCell (row.getD cols.grantee none)
    let instrument := normDataCell (row.getD cols.instrument none)
    if date_str ≠ "" && book_page ≠ "" && (grantor ≠ "" || grantee ≠ "") then
      match parse_date_spec date_str with
      | some parsed_date =>
        some { date := parsed_date
               date_string := date_str
               grantor := grantor
               grantee := grantee
               instrument := instrument
               book_page := book_page
               remark := ""
               is_vesting := is_vesting_deed instrument
               line := joinSp [date_str, grantor, grantee, instrument, book_page] }
      | none => none
    else none
  else none

/-- Modelled from the spec: the missing cell-matrix table parser for one
matrix (first row = header); a table whose header does not resolve all
five required columns is skipped, yielding no records. -/
def parse_chain_table_matrix (table : List (List (Option String))) :
    List ChainEntry :=
  match table with
  | [] => []
  | header :: rows =>
    match resolveCols (header.map normHeaderCell) with
    | none => []
    | some cols => rows.filterMap (rowEntry cols header.length)

/-- Modelled from the spec: the missing `extract_chain_from_tables`
entry point — run the cell-matrix parser over each matrix, concatenating
results in encounter order. -/
def extract_chain_from_tables : List (List (List (Option String))) →
    List ChainEntry
  | [] => []
  | t :: ts => parse_chain_table_matrix t ++ extract_chain_from_tables ts

/-! ## Selector lemmas -/

theorem chainLoop_min_or_all (cutoff : Int) :
    ∀ (l acc : List ChainEntry),
      minDate (chainLoop cutoff acc l) ≤ cutoff ∨
        chainLoop cutoff acc l = acc ++ l := by
  intro l
  induction l with
  | nil => intro acc; right; simp [chainLoop]
  | cons d ds ih =>
    intro acc
    simp only [chainLoop]
    by_cases h : minDate (acc ++ [d]) ≤ cutoff
    · left; simp [h]
    · rcases ih (acc ++ [d]) with h2 | h2
      · left; simpa [h] using h2
      · right; simpa [h, List.append_assoc] using h2

theorem chainLoop_take (cutoff : Int) :
    ∀ (l acc : List ChainEntry),
      ∃ k, chainLoop cutoff acc l = acc ++ l.take k := by
  intro l
  induction l with
  | nil => intro acc; exact ⟨0, by simp [chainLoop]⟩
  | cons d ds ih =>
    intro acc
    simp only [chainLoop]
    by_cases h : minDate (acc ++ [d]) ≤ cutoff
    · exact ⟨1, by simp [h]⟩
    · rcases ih (acc ++ [d]) with ⟨k, hk⟩
      exact ⟨k + 1, by simp [h, hk, List.append_assoc]⟩

theorem foldlMin_init :
    ∀ (es : List ChainEntry) (a b : Int),
      es.foldl (fun m x => min m (entryKey x)) (min a b) =
        min a (es.foldl (fun m x => min m (entryKey x)) b) := by
  intro es
  induction es with
  | nil => intro a b; rfl
  | cons d ds ih =>
    intro a b
    simp only [List.foldl_cons, min_assoc]
    exact ih a (min b (entryKey d))

theorem minDate_le_iff (c : Int) :
    ∀ (l : List ChainEntry), l ≠ [] →
      (minDate l ≤ c ↔ ∃ x ∈ l, entryKey x ≤ c) := by
  intro l
  induction l with
  | nil => intro h; exact absurd rfl h
  | cons e es ih =>
    intro _
    cases es with
    | nil => simp [minDate]
    | cons d ds =>
      have h2 : minDate (e :: d :: ds) = min (entryKey e) (minDate (d :: ds)) := by
        simp only [minDate, List.foldl_cons]
        exact foldlMin_init (ds) (entryKey e) (entryKey d)
      rw [h2, min_le_iff, ih (by simp)]
      simp only [List.mem_cons]
      constructor
      · rintro (h | ⟨x, hx, hxc⟩)
        · exact ⟨e, Or.inl rfl, h⟩
        · exact ⟨x, Or.inr hx, hxc⟩
      · rintro ⟨x, (rfl | hx), hxc⟩
        · exact Or.inl hxc
        · exact Or.inr ⟨x, hx, hxc⟩

theorem minDate_cons₂ (e d : ChainEntry) (ds : List ChainEntry) :
    minDate (e :: d :: ds) = min (entryKey e) (minDate (d :: ds)) := by
  simp only [minDate, List.foldl_cons]
  exact foldlMin_init ds (entryKey e) (entryKey d)

theorem sorted_minDate_getLast :
    ∀ (l : List ChainEntry) (h : l ≠ []), List.Sorted chainDescRel l →
      minDate l = entryKey (l.getLast h) := by
  intro l
  induction l with
  | nil => intro h; exact absurd rfl h
  | cons e es ih =>
    intro _ hs
    cases es with
    | nil => simp [minDate]
    | cons d ds =>
      rw [minDate_cons₂, ih (by simp) (List.sorted_cons.mp hs).2]
      have hmem : (d :: ds).getLast (by simp) ∈ d :: ds := List.getLast_mem _
      have hle : chainDescRel e ((d :: ds).getLast (by simp)) :=
        (List.sorted_cons.mp hs).1 _ hmem
      rw [@List.getLast_cons _ e (d :: ds) (by simp)]
      exact min_eq_right hle

/-- The stop-inclusive prefix that the greedy loop takes from a
descending list: keep records until the first one at or before the
cutoff, inclusive. -/
def takeThru (cutoff : Int) : List ChainEntry → List ChainEntry
  | [] => []
  | d :: ds => d :: (if entryKey d ≤ cutoff then [] else takeThru cutoff ds)

theorem takeThru_append :
    ∀ (cutoff : Int) (l : List ChainEntry), ∃ t, takeThru cutoff l ++ t = l := by
  intro cutoff l
  induction l with
  | nil => exact ⟨[], rfl⟩
  | cons d ds ih =>
    by_cases h : entryKey d ≤ cutoff
    · exact ⟨ds, by simp [takeThru, h]⟩
    · rcases ih with ⟨t, ht⟩
      exact ⟨t, by simp [takeThru, h, ht]⟩

theorem takeThru_sublist (cutoff : Int) (l : List ChainEntry) :
    (takeThru cutoff l).Sublist l := by
  rcases takeThru_append cutoff l with ⟨t, ht⟩
  have h2 := List.sublist_append_left (takeThru cutoff l) t
  rwa [ht] at h2

theorem takeThru_idem (cutoff : Int) :
    ∀ l : List ChainEntry, takeThru cutoff (takeThru cutoff l) = takeThru cutoff l := by
  intro l
  induction l with
  | nil => rfl
  | cons d ds ih =>
    by_cases h : entryKey d ≤ cutoff
    · simp [takeThru, h]
    · simp [takeThru, h, ih]

theorem chainLoop_sorted_eq (cutoff : Int) :
    ∀ (l acc : List ChainEntry), acc ≠ [] →
      List.Sorted chainDescRel (acc ++ l) →
      chainLoop cutoff acc l = acc ++ takeThru cutoff l := by
  intro l
  induction l with
  | nil => intro acc _ _; simp [chainLoop, takeThru]
  | cons d ds ih =>
    intro acc hne hs
    have hsub : (acc ++ [d]).Sublist (acc ++ d :: ds) :=
      List.Sublist.append_left (by simp) acc
    have hs2 : List.Sorted chainDescRel (acc ++ [d]) := hs.sublist hsub
    have hlast : (acc ++ [d]).getLast (by simp) = d := by
      simp
    have hmin : minDate (acc ++ [d]) = entryKey d := by
      rw [sorted_minDate_getLast (acc ++ [d]) (by simp) hs2, hlast]
    simp only [chainLoop, hmin]
    by_cases h : entryKey d ≤ cutoff
    · simp [h, takeThru]
    · have hs3 : List.Sorted chainDescRel ((acc ++ [d]) ++ ds) := by
        simpa [List.append_assoc] using hs
      rw [if_neg h, ih (acc ++ [d]) (by simp) hs3]
      simp [takeThru, h, List.append_assoc]

/-- Unfolding of `get_24_month_chain` used by the selector proofs. -/
theorem get24_eq (entries : List ChainEntry) (pd : Datetime) :
    get_24_month_chain entries pd =
      match sortByDateDesc (entries.filter (fun e => e.is_vesting)) with
      | [] => []
      | v0 :: rest =>
        sortByDateDesc
          (if pd.toOrdinal - 730 ≤ entryKey v0 then
            chainLoop (pd.toOrdinal - 730) [v0] rest
          else [v0]) := rfl

/-! ## Concrete scenario records -/

/-- Scenario A newest vesting deed (2024-01-10). -/
def scenarioA1 : ChainEntry :=
  { date := ⟨2024, 1, 10⟩, date_string := "01/10/2024", grantor := "SMITH"
    grantee := "JONES", instrument := "WARRANTY DEED", book_page := "123-456"
    remark := "", is_vesting := true, line := "" }

/-- Scenario A middle vesting deed (2023-06-01). -/
def scenarioA2 : ChainEntry :=
  { date := ⟨2023, 6, 1⟩, date_string := "06/01/2023", grantor := "BROWN"
    grantee := "SMITH", instrument := "WARRANTY DEED", book_page := "122-333"
    remark := "", is_vesting := true, line := "" }

/-- Scenario A oldest vesting deed (2021-03-01). -/
def scenarioA3 : ChainEntry :=
  { date := ⟨2021, 3, 1⟩, date_string := "03/01/2021", grantor := "DAVIS"
    grantee := "BROWN", instrument := "QUITCLAIM DEED", book_page := "100-200"
    remark := "", is_vesting := true, line := "" }

/-- Scenario A processing date (2025-01-10). -/
def scenarioADate : Datetime := ⟨2025, 1, 10⟩

/-- C2: the claim as stated is false on the code: with records dated
2024-01-10, 2023-06-01 and 2021-03-01 and reference date 2025-01-10,
the selector does not return only the two newest records — after the
first two the minimum accumulated date (2023-06-01) is still after the
cutoff (2023-01-11), so the loop continues. -/
theorem c2_counterexample :
    get_24_month_chain [scenarioA1, scenarioA2, scenarioA3] scenarioADate ≠
      [scenarioA1, scenarioA2] := by
  decide

/-- C2 (amended): for exactly three vesting records dated 2024-01-10,
2023-06-01 and 2021-03-01 and reference date 2025-01-10 (cutoff
2023-01-11), `get_24_month_chain` returns all three records in
descending date order, because the two newest do not reach back to the
cutoff. -/
theorem c2_amended :
    get_24_month_chain [scenarioA1, scenarioA2, scenarioA3] scenarioADate =
        [scenarioA1, scenarioA2, scenarioA3] ∧
      scenarioADate.toOrdinal - 730 = (⟨2023, 1, 11⟩ : Datetime).toOrdinal ∧
      (⟨2023, 1, 11⟩ : Datetime).toOrdinal < entryKey scenarioA2 := by
  refine ⟨by decide, by decide, by decide⟩

/-- C3: for every record sequence and reference date, the selector
output satisfies at least one of: its earliest date reaches the cutoff;
it is a singleton holding the overall newest vesting record; it contains
every vesting record of the input — and it holds only vesting records,
sorted descending by date. -/
theorem c3_selector_invariant (entries : List ChainEntry) (pd : Datetime) :
    ((get_24_month_chain entries pd ≠ [] ∧
        minDate (get_24_month_chain entries pd) ≤ pd.toOrdinal - 730) ∨
      (∃ v, get_24_month_chain entries pd = [v] ∧ v ∈ entries ∧
          v.is_vesting = true ∧
          ∀ e ∈ entries, e.is_vesting = true → entryKey e ≤ entryKey v) ∨
      (∀ e ∈ entries, e.is_vesting = true →
        e ∈ get_24_month_chain entries pd)) ∧
    (∀ e ∈ get_24_month_chain entries pd, e.is_vesting = true) ∧
    List.Sorted chainDescRel (get_24_month_chain entries pd) := by
  rcases hV : sortByDateDesc (entries.filter (fun e => e.is_vesting)) with - | ⟨v0, rest⟩
  · have hr : get_24_month_chain entries pd = [] := by rw [get24_eq, hV]
    have hfil : entries.filter (fun e => e.is_vesting) = [] := by
      have hperm := List.perm_insertionSort chainDescRel
        (entries.filter (fun e => e.is_vesting))
      rw [sortByDateDesc] at hV
      rw [hV] at hperm
      exact hperm.symm.eq_nil
    refine ⟨Or.inr (Or.inr ?_), ?_, ?_⟩
    · intro e he hv
      have : e ∈ entries.filter (fun e => e.is_vesting) :=
        List.mem_filter.mpr ⟨he, hv⟩
      rw [hfil] at this
      exact absurd this (List.not_mem_nil e)
    · intro e he; rw [hr] at he; exact absurd he (List.not_mem_nil e)
    · rw [hr]; exact List.sorted_nil
  · have hperm : (v0 :: rest).Perm (entries.filter (fun e => e.is_vesting)) := by
      rw [← hV, sortByDateDesc]
      exact List.perm_insertionSort chainDescRel _
    have hsort : List.Sorted chainDescRel (v0 :: rest) := by
      rw [← hV, sortByDateDesc]
      exact List.sorted_insertionSort chainDescRel _
    have hvest : ∀ e ∈ v0 :: rest, e.is_vesting = true := fun e he =>
      List.of_mem_filter (hperm.subset he)
    have hmem : ∀ e ∈ v0 :: rest, e ∈ entries := fun e he =>
      List.mem_of_mem_filter (hperm.subset he)
    by_cases hc : pd.toOrdinal - 730 ≤ entryKey v0
    · have hr : get_24_month_chain entries pd =
          sortByDateDesc (chainLoop (pd.toOrdinal - 730) [v0] rest) := by
        rw [get24_eq, hV]; simp only [if_pos hc]
      have hclperm : (get_24_month_chain entries pd).Perm
          (chainLoop (pd.toOrdinal - 730) [v0] rest) := by
        rw [hr, sortByDateDesc]; exact List.perm_insertionSort chainDescRel _
      have hclsub : ∀ e ∈ chainLoop (pd.toOrdinal - 730) [v0] rest,
          e ∈ v0 :: rest := by
        rcases chainLoop_take (pd.toOrdinal - 730) rest [v0] with ⟨k, hk⟩
        rw [hk]
        intro e he
        rcases List.mem_append.mp he with h | h
        · exact List.mem_cons.mpr (Or.inl (List.mem_singleton.mp h))
        · exact List.mem_cons_of_mem _ ((List.take_sublist k rest).subset h)
      refine ⟨?_, ?_, ?_⟩
      · rcases chainLoop_min_or_all (pd.toOrdinal - 730) rest [v0] with h | h
        · left
          have hne : chainLoop (pd.toOrdinal - 730) [v0] rest ≠ [] := by
            rcases chainLoop_take (pd.toOrdinal - 730) rest [v0] with ⟨k, hk⟩
            rw [hk]; simp
          have hne2 : get_24_month_chain entries pd ≠ [] := by
            intro h0
            rw [h0] at hclperm
            exact hne hclperm.symm.eq_nil
          refine ⟨hne2, ?_⟩
          rw [minDate_le_iff _ _ hne2]
          rcases (minDate_le_iff _ _ hne).mp h with ⟨x, hx, hxc⟩
          exact ⟨x, hclperm.mem_iff.mpr hx, hxc⟩
        · right; right
          intro e he hv
          have : e ∈ entries.filter (fun e => e.is_vesting) :=
            List.mem_filter.mpr ⟨he, hv⟩
          have : e ∈ v0 :: rest := hperm.symm.subset this
          have : e ∈ chainLoop (pd.toOrdinal - 730) [v0] rest := by
            rw [h]; simpa using this
          exact hclperm.mem_iff.mpr this
      · intro e he
        exact hvest e (hclsub e (hclperm.subset he))
      · rw [hr, sortByDateDesc]; exact List.sorted_insertionSort chainDescRel _
    · have hr : get_24_month_chain entries pd = [v0] := by
        rw [get24_eq, hV]; simp only [if_neg hc]; rfl
      refine ⟨Or.inr (Or.inl ⟨v0, hr, hmem v0 (List.mem_cons_self _ _),
          hvest v0 (List.mem_cons_self _ _), ?_⟩), ?_, ?_⟩
      · intro e he hv
        have : e ∈ entries.filter (fun e => e.is_vesting) :=
          List.mem_filter.mpr ⟨he, hv⟩
        have he2 : e ∈ v0 :: rest := hperm.symm.subset this
        rcases List.mem_cons.mp he2 with rfl | he3
        · exact le_refl _
        · exact (List.sorted_cons.mp hsort).1 e he3
      · intro e he; rw [hr] at he
        rw [List.mem_singleton.mp he]
        exact hvest v0 (List.mem_cons_self _ _)
      · rw [hr]; exact List.sorted_singleton v0

/-- C3 witness: the invariant instantiated at a concrete input. -/
theorem c3_selector_invariant_witness :
    ((get_24_month_chain [scenarioA3] scenarioADate ≠ [] ∧
        minDate (get_24_month_chain [scenarioA3] scenarioADate) ≤
          scenarioADate.toOrdinal - 730) ∨
      (∃ v, get_24_month_chain [scenarioA3] scenarioADate = [v] ∧
          v ∈ [scenarioA3] ∧ v.is_vesting = true ∧
          ∀ e ∈ [scenarioA3], e.is_vesting = true → entryKey e ≤ entryKey v) ∨
      (∀ e ∈ [scenarioA3], e.is_vesting = true →
        e ∈ get_24_month_chain [scenarioA3] scenarioADate)) ∧
    (∀ e ∈ get_24_month_chain [scenarioA3] scenarioADate, e.is_vesting = true) ∧
    List.Sorted chainDescRel (get_24_month_chain [scenarioA3] scenarioADate) :=
  c3_selector_invariant [scenarioA3] scenarioADate

/-- C7: re-running the selector on its own output with the same
reference date returns that output unchanged. -/
theorem c7_selector_idempotent (entries : List ChainEntry) (pd : Datetime) :
    get_24_month_chain (get_24_month_chain entries pd) pd =
      get_24_month_chain entries pd := by
  rcases hV : sortByDateDesc (entries.filter (fun e => e.is_vesting)) with - | ⟨v0, rest⟩
  · have hr : get_24_month_chain entries pd = [] := by rw [get24_eq, hV]
    rw [hr]
    rfl
  · have hperm : (v0 :: rest).Perm (entries.filter (fun e => e.is_vesting)) := by
      rw [← hV, sortByDateDesc]
      exact List.perm_insertionSort chainDescRel _
    have hsort : List.Sorted chainDescRel (v0 :: rest) := by
      rw [← hV, sortByDateDesc]
      exact List.sorted_insertionSort chainDescRel _
    have hvest : ∀ e ∈ v0 :: rest, e.is_vesting = true := fun e he =>
      List.of_mem_filter (hperm.subset he)
    by_cases hc : pd.toOrdinal - 730 ≤ entryKey v0
    · have hcl : chainLoop (pd.toOrdinal - 730) [v0] rest =
          v0 :: takeThru (pd.toOrdinal - 730) rest := by
        have h := chainLoop_sorted_eq (pd.toOrdinal - 730) rest [v0]
          (by simp) (by simpa using hsort)
        simpa using h
      have hr0sorted :
          List.Sorted chainDescRel (v0 :: takeThru (pd.toOrdinal - 730) rest) :=
        hsort.sublist ((takeThru_sublist (pd.toOrdinal - 730) rest).cons₂ v0)
      have hr : get_24_month_chain entries pd =
          v0 :: takeThru (pd.toOrdinal - 730) rest := by
        rw [get24_eq, hV]
        simp only [if_pos hc, hcl, sortByDateDesc]
        exact hr0sorted.insertionSort_eq
      have hvest2 : ∀ e ∈ v0 :: takeThru (pd.toOrdinal - 730) rest,
          e.is_vesting = true := by
        intro e he
        rcases List.mem_cons.mp he with rfl | he2
        · exact hvest e (List.mem_cons_self _ _)
        · exact hvest e (List.mem_cons_of_mem _
            ((takeThru_sublist (pd.toOrdinal - 730) rest).subset he2))
      have hfil : (v0 :: takeThru (pd.toOrdinal - 730) rest).filter
          (fun e => e.is_vesting) = v0 :: takeThru (pd.toOrdinal - 730) rest :=
        List.filter_eq_self.mpr hvest2
      have hsort2 : sortByDateDesc (v0 :: takeThru (pd.toOrdinal - 730) rest) =
          v0 :: takeThru (pd.toOrdinal - 730) rest := by
        rw [sortByDateDesc]; exact hr0sorted.insertionSort_eq
      rw [hr, get24_eq, hfil, hsort2]
      simp only [if_pos hc]
      have hcl2 : chainLoop (pd.toOrdinal - 730) [v0]
          (takeThru (pd.toOrdinal - 730) rest) =
          v0 :: takeThru (pd.toOrdinal - 730) (takeThru (pd.toOrdinal - 730) rest) := by
        have h := chainLoop_sorted_eq (pd.toOrdinal - 730)
          (takeThru (pd.toOrdinal - 730) rest) [v0] (by simp) (by simpa using hr0sorted)
        simpa using h
      rw [hcl2, takeThru_idem, hsort2]
    · have hr : get_24_month_chain entries pd = [v0] := by
        rw [get24_eq, hV]; simp only [if_neg hc]; rfl
      have hfil : [v0].filter (fun e => e.is_vesting) = [v0] :=
        List.filter_eq_self.mpr (fun a ha => by
          rw [List.mem_singleton.mp ha]
          exact hvest v0 (List.mem_cons_self _ _))
      rw [hr, get24_eq, hfil]
      have hs1 : sortByDateDesc [v0] = [v0] := rfl
      rw [hs1]
      simp only [if_neg hc]
      rfl

/-! ## C5: instrument classifier -/

/-- C5: the classifier is a total Boolean function in which any
non-vesting keyword hit decides non-vesting before the vesting list is
consulted, the vesting list decides otherwise, with the spec's three
concrete classifications. -/
theorem c5_classifier_precedence :
    (∀ s : String,
      (non_vesting_types.any
          (fun k => pyContains k (pyStrip (pyUpper s))) = true →
        is_vesting_deed s = false) ∧
      (non_vesting_types.any
          (fun k => pyContains k (pyStrip (pyUpper s))) = false →
        is_vesting_deed s =
          vesting_deed_types.any
            (fun k => pyContains k (pyStrip (pyUpper s))))) ∧
    is_vesting_deed "DEED OF TRUST" = false ∧
    is_vesting_deed "WARRANTY DEED" = true ∧
    is_vesting_deed "ASSIGNMENT OF LEASES, REENTS AND INCOME" = false := by
  refine ⟨fun s => ⟨fun h => ?_, fun h => ?_⟩, by decide, by decide, by decide⟩
  · simp [is_vesting_deed, h]
  · simp only [is_vesting_deed, h, Bool.false_eq_true, if_false]
    split <;> simp_all

/-- C5 witness: an instrument containing both a non-vesting keyword and
a vesting keyword is classified non-vesting (the non-vesting list wins). -/
theorem c5_classifier_precedence_witness :
    non_vesting_types.any (fun k => pyContains k
      (pyStrip (pyUpper "ASSIGNMENT OF LEASES AND DEED OF TRUST"))) = true ∧
    vesting_deed_types.any (fun k => pyContains k
      (pyStrip (pyUpper "ASSIGNMENT OF LEASES AND DEED OF TRUST"))) = true ∧
    is_vesting_deed "ASSIGNMENT OF LEASES AND DEED OF TRUST" = false :=
  ⟨by decide, by decide,
    (c5_classifier_precedence.1 "ASSIGNMENT OF LEASES AND DEED OF TRUST").1
      (by decide)⟩

/-! ## C9: normalizer characterization -/

theorem joinSp_glue (a b : String) :
    ∀ xs : List String, joinSp ((a ++ " " ++ b) :: xs) = a ++ " " ++ joinSp (b :: xs)
  | [] => rfl
  | x :: xs => by
    show (a ++ " " ++ b) ++ " " ++ joinSp (x :: xs) =
      a ++ " " ++ (b ++ " " ++ joinSp (x :: xs))
    simp [String.append_assoc]

theorem absorbLines_eq (combined : String) (ls : List String) :
    absorbLines combined ls =
      (joinSp (combined ::
          (ls.takeWhile (fun l => !isStopLine (pyStrip l))).map pyStrip),
        ls.dropWhile (fun l => !isStopLine (pyStrip l))) := by
  induction ls generalizing combined with
  | nil => simp [absorbLines, joinSp]
  | cons l ls ih =>
    by_cases hs : isStopLine (pyStrip l)
    · simp [absorbLines, hs, List.takeWhile_cons, List.dropWhile_cons, joinSp]
    · simp only [absorbLines, hs, Bool.false_eq_true, if_false,
        List.takeWhile_cons, List.dropWhile_cons, Bool.not_false, if_true,
        List.map_cons]
      rw [ih, joinSp_glue]
      rfl

theorem ppGo_some (ls : List String) :
    ∀ combined, ppGo (some combined) ls =
      (absorbLines combined ls).1 :: ppGo none (absorbLines combined ls).2 := by
  induction ls with
  | nil => intro combined; rfl
  | cons l ls ih =>
    intro combined
    by_cases hs : isStopLine (pyStrip l)
    · simp only [ppGo, absorbLines, hs, if_true]
    · simp only [ppGo, absorbLines, hs, Bool.false_eq_true, if_false]
      exact ih _

/-- C9: the normalizer is a pure function of its lines in which a
date-prefixed line absorbs, space-joined, exactly the maximal run of
following lines that are neither empty, nor date-prefixed, nor
stop-marker lines; processing resumes at the first stop line, so no
entry is merged across one. -/
theorem c9_normalizer_characterization :
    (∀ (combined : String) (ls : List String),
      absorbLines combined ls =
        (joinSp (combined ::
            (ls.takeWhile (fun l => !isStopLine (pyStrip l))).map pyStrip),
          ls.dropWhile (fun l => !isStopLine (pyStrip l)))) ∧
    (∀ (l : String) (ls : List String), startsWithDate (pyStrip l) = true →
      preprocessLines (l :: ls) =
        joinSp (pyStrip l ::
            (ls.takeWhile (fun x => !isStopLine (pyStrip x))).map pyStrip) ::
          preprocessLines (ls.dropWhile (fun x => !isStopLine (pyStrip x)))) ∧
    (∀ (l : String) (ls : List String), startsWithDate (pyStrip l) = false →
      preprocessLines (l :: ls) = pyStrip l :: preprocessLines ls) ∧
    (∀ (ls : List String) (x : String),
      x ∈ ls.takeWhile (fun l => !isStopLine (pyStrip l)) →
      isStopLine (pyStrip x) = false) := by
  refine ⟨absorbLines_eq, fun l ls h => ?_, fun l ls h => ?_, fun ls x hx => ?_⟩
  · show ppGo none (l :: ls) = _
    simp only [ppGo, h, if_true]
    rw [ppGo_some, absorbLines_eq]
    rfl
  · show ppGo none (l :: ls) = _
    simp only [ppGo, h, Bool.false_eq_true, if_false]
    rfl
  · have := List.mem_takeWhile_imp hx
    simpa using this

/-- C9 witness: the characterization applied to a concrete date line
followed by one continuation line and one stop line. -/
theorem c9_normalizer_characterization_witness :
    startsWithDate (pyStrip "01/02/2023 A") = true ∧
    preprocessLines ["01/02/2023 A", " B ", "FILED x"] =
      joinSp (pyStrip "01/02/2023 A" ::
          ((["  B ", "FILED x"].takeWhile
            (fun x => !isStopLine (pyStrip x))).map pyStrip)) ::
        preprocessLines (["  B ", "FILED x"].dropWhile
          (fun x => !isStopLine (pyStrip x))) := by
  refine ⟨by decide, ?_⟩
  have h := c9_normalizer_characterization.2.1 "01/02/2023 A" [" B ", "FILED x"]
    (by decide)
  rw [h]
  decide

/-! ## C8: date parsing and formatting -/

/-- Zero-padded two-digit decimal rendering (as `%02d`). -/
def pad2 (n : Nat) : String :=
  ⟨[Nat.digitChar (n / 10), Nat.digitChar (n % 10)]⟩

/-- Zero-padded four-digit decimal rendering (as `%04d`). -/
def pad4 (n : Nat) : String :=
  ⟨[Nat.digitChar (n / 1000), Nat.digitChar (n / 100 % 10),
    Nat.digitChar (n / 10 % 10), Nat.digitChar (n % 10)]⟩

/-- Formatting a datetime back as `MM/DD/YYYY` (as the module does when
it writes `date_string` fields). -/
def fmtDate (dt : Datetime) : String :=
  pad2 dt.month.toNat ++ "/" ++ pad2 dt.day.toNat ++ "/" ++ pad4 dt.year.toNat

theorem digitChar_isDigit {d : Nat} (h : d < 10) :
    (Nat.digitChar d).isDigit = true := by
  interval_cases d <;> decide

theorem digitChar_toNat {d : Nat} (h : d < 10) :
    (Nat.digitChar d).toNat = 48 + d := by
  interval_cases d <;> decide

theorem space_not_digit {c : Char} (h : isPySpace c = true) :
    c.isDigit = false := by
  simp only [isPySpace, Bool.or_eq_true, beq_iff_eq] at h
  rcases h with ((((h | h) | h) | h) | h) | h <;> subst h <;> decide

theorem isDigit_not_space {c : Char} (h : c.isDigit = true) :
    isPySpace c = false := by
  by_cases hs : isPySpace c
  · rw [space_not_digit hs] at h
    cases h
  · simpa using hs

theorem isDigit_ne {c : Char} (h : c.isDigit = true) (d : Char)
    (hd : d.isDigit = false) : c ≠ d := by
  intro hcd
  rw [hcd, hd] at h
  cases h

theorem dropWhile_eq_self {p : Char → Bool} :
    ∀ cs : List Char, (∀ c ∈ cs, p c = false) → cs.dropWhile p = cs
  | [], _ => rfl
  | c :: cs, h => by
    simp [List.dropWhile_cons, h c (List.mem_cons_self c cs)]

theorem pyStripL_no_space (cs : List Char)
    (h : ∀ c ∈ cs, isPySpace c = false) : pyStripL cs = cs := by
  rw [pyStripL, dropWhile_eq_self cs h, dropWhile_eq_self]
  · exact List.reverse_reverse cs
  · intro c hc
    exact h c (List.mem_reverse.mp hc)

theorem pyDigitsRun_all_digits :
    ∀ (cs : List Char) (acc : Nat), (∀ c ∈ cs, c.isDigit = true) →
      pyDigitsRun acc false cs =
        some (cs.foldl (fun a c => 10 * a + (c.toNat - 48)) acc) := by
  intro cs
  induction cs with
  | nil => intro acc _; rfl
  | cons c cs ih =>
    intro acc h
    have hc : c.isDigit = true := h c (List.mem_cons_self c cs)
    simp only [pyDigitsRun, hc, if_true, List.foldl_cons]
    exact ih _ (fun x hx => h x (List.mem_cons_of_mem c hx))


theorem pyInt?_digits (cs : List Char) (hne : cs ≠ [])
    (h : ∀ c ∈ cs, c.isDigit = true) :
    pyInt? ⟨cs⟩ =
      some ((cs.foldl (fun a c => 10 * a + (c.toNat - 48)) 0 : Nat) : Int) := by
  have hs : pyStripL cs = cs :=
    pyStripL_no_space cs (fun c hc => isDigit_not_space (h c hc))
  show (match pyStripL cs with
    | '+' :: rest => (pyDigits rest).map (fun n => (n : Int))
    | '-' :: rest => (pyDigits rest).map (fun n => -(n : Int))
    | rest => (pyDigits rest).map (fun n => (n : Int))) = _
  rw [hs]
  cases cs with
  | nil => exact absurd rfl hne
  | cons c cs =>
    have hc : c.isDigit = true := h c (List.mem_cons_self c cs)
    have hplus : c ≠ '+' := isDigit_ne hc '+' (by decide)
    have hminus : c ≠ '-' := isDigit_ne hc '-' (by decide)
    split
    · rename_i rest heq
      exact absurd (List.cons_eq_cons.mp heq).1 hplus
    · rename_i rest heq
      exact absurd (List.cons_eq_cons.mp heq).1 hminus
    · simp only [pyDigits, hc, if_true,
        pyDigitsRun_all_digits cs _ (fun x hx => h x (List.mem_cons_of_mem c hx)),
        List.foldl_cons, Option.map_some, mul_zero, zero_add]
      rfl

theorem pyInt?_pad2 {n : Nat} (h : n < 100) : pyInt? (pad2 n) = some (n : Int) := by
  have h1 : n / 10 < 10 := by omega
  have h2 : n % 10 < 10 := by omega
  have hd : ∀ c ∈ [Nat.digitChar (n / 10), Nat.digitChar (n % 10)],
      c.isDigit = true := by
    intro c hc
    rcases List.mem_cons.mp hc with rfl | hc2
    · exact digitChar_isDigit h1
    · rw [List.mem_singleton.mp hc2]
      exact digitChar_isDigit h2
  rw [pad2, pyInt?_digits _ (by simp) hd]
  congr 1
  have : [Nat.digitChar (n / 10), Nat.digitChar (n % 10)].foldl
      (fun a c => 10 * a + (c.toNat - 48)) 0 = n := by
    simp only [List.foldl_cons, List.foldl_nil,
      digitChar_toNat h1, digitChar_toNat h2]
    omega
  rw [this]

theorem pyInt?_pad4 {n : Nat} (h : n < 10000) : pyInt? (pad4 n) = some (n : Int) := by
  have h1 : n / 1000 < 10 := by omega
  have h2 : n / 100 % 10 < 10 := by omega
  have h3 : n / 10 % 10 < 10 := by omega
  have h4 : n % 10 < 10 := by omega
  have hd : ∀ c ∈ [Nat.digitChar (n / 1000), Nat.digitChar (n / 100 % 10),
      Nat.digitChar (n / 10 % 10), Nat.digitChar (n % 10)], c.isDigit = true := by
    intro c hc
    simp only [List.mem_cons, List.not_mem_nil, or_false] at hc
    rcases hc with rfl | rfl | rfl | rfl
    · exact digitChar_isDigit h1
    · exact digitChar_isDigit h2
    · exact digitChar_isDigit h3
    · exact digitChar_isDigit h4
  rw [pad4, pyInt?_digits _ (by simp) hd]
  congr 1
  have : [Nat.digitChar (n / 1000), Nat.digitChar (n / 100 % 10),
      Nat.digitChar (n / 10 % 10), Nat.digitChar (n % 10)].foldl
      (fun a c => 10 * a + (c.toNat - 48)) 0 = n := by
    simp only [List.foldl_cons, List.foldl_nil, digitChar_toNat h1,
      digitChar_toNat h2, digitChar_toNat h3, digitChar_toNat h4]
    omega
  rw [this]

theorem splitOnChar_ne_nil (sep : Char) : ∀ l : List Char, splitOnChar sep l ≠ [] := by
  intro l
  cases l with
  | nil => simp [splitOnChar]
  | cons c cs =>
    simp only [splitOnChar]
    cases h : splitOnChar sep cs with
    | nil => simp
    | cons g gs => by_cases hcs : c == sep <;> simp [hcs]

theorem splitOnChar_no_sep (sep : Char) :
    ∀ l : List Char, (∀ c ∈ l, (c == sep) = false) → splitOnChar sep l = [l] := by
  intro l
  induction l with
  | nil => intro _; rfl
  | cons c cs ih =>
    intro h
    have hc : (c == sep) = false := h c (List.mem_cons_self c cs)
    simp only [splitOnChar, ih (fun x hx => h x (List.mem_cons_of_mem c hx)), hc,
      Bool.false_eq_true, if_false]

theorem splitOnChar_append (sep : Char) :
    ∀ (l1 l2 : List Char), (∀ c ∈ l1, (c == sep) = false) →
      splitOnChar sep (l1 ++ sep :: l2) = l1 :: splitOnChar sep l2 := by
  intro l1
  induction l1 with
  | nil =>
    intro l2 _
    simp only [List.nil_append, splitOnChar]
    rcases h : splitOnChar sep l2 with - | ⟨g, gs⟩
    · exact absurd h (splitOnChar_ne_nil sep l2)
    · simp
  | cons c cs ih =>
    intro l2 h
    have hc : (c == sep) = false := h c (List.mem_cons_self c cs)
    show splitOnChar sep ((c :: cs) ++ sep :: l2) = (c :: cs) :: splitOnChar sep l2
    rw [List.cons_append]
    show (match splitOnChar sep (cs ++ sep :: l2) with
      | [] => [[c]]
      | g :: gs => if c == sep then [] :: g :: gs else (c :: g) :: gs) = _
    rw [ih l2 (fun x hx => h x (List.mem_cons_of_mem c hx))]
    simp [hc]

theorem pad2_no_slash {n : Nat} (h : n < 100) :
    ∀ c ∈ (pad2 n).data, (c == '/') = false := by
  intro c hc
  have h1 : n / 10 < 10 := by omega
  have h2 : n % 10 < 10 := by omega
  simp only [pad2, List.mem_cons, List.not_mem_nil, or_false] at hc
  have hd : c.isDigit = true := by
    rcases hc with rfl | rfl
    · exact digitChar_isDigit h1
    · exact digitChar_isDigit h2
  simpa using isDigit_ne hd '/' (by decide)

theorem pad4_no_slash {n : Nat} (h : n < 10000) :
    ∀ c ∈ (pad4 n).data, (c == '/') = false := by
  intro c hc
  have h1 : n / 1000 < 10 := by omega
  have h2 : n / 100 % 10 < 10 := by omega
  have h3 : n / 10 % 10 < 10 := by omega
  have h4 : n % 10 < 10 := by omega
  simp only [pad4, List.mem_cons, List.not_mem_nil, or_false] at hc
  have hd : c.isDigit = true := by
    rcases hc with rfl | rfl | rfl | rfl
    · exact digitChar_isDigit h1
    · exact digitChar_isDigit h2
    · exact digitChar_isDigit h3
    · exact digitChar_isDigit h4
  simpa using isDigit_ne hd '/' (by decide)

theorem parse_date_fmtDate {y m d : Int} (h : dateOkB y m d = true) :
    parse_date (fmtDate ⟨y, m, d⟩) = .ok (some ⟨y, m, d⟩) := by
  have hb : 1 ≤ y ∧ y ≤ 9999 ∧ 1 ≤ m ∧ m ≤ 12 ∧ 1 ≤ d ∧ d ≤ daysInMonth y m := by
    simpa [dateOkB, Bool.and_eq_true, decide_eq_true_eq, and_assoc] using h
  have hdim : daysInMonth y m ≤ 31 := by
    rw [daysInMonth]
    split
    · split <;> omega
    · split <;> omega
  have hm : m.toNat < 100 := by omega
  have hd2 : d.toNat < 100 := by omega
  have hy : y.toNat < 10000 := by omega
  have hdata : (fmtDate ⟨y, m, d⟩).data =
      (pad2 m.toNat).data ++ '/' ::
        ((pad2 d.toNat).data ++ '/' :: (pad4 y.toNat).data) := by
    simp [fmtDate, String.data_append]
  have hsplit : splitOnChar '/' (fmtDate ⟨y, m, d⟩).data =
      [(pad2 m.toNat).data, (pad2 d.toNat).data, (pad4 y.toNat).data] := by
    rw [hdata, splitOnChar_append _ _ _ (pad2_no_slash hm),
      splitOnChar_append _ _ _ (pad2_no_slash hd2),
      splitOnChar_no_sep _ _ (pad4_no_slash hy)]
  show (match (splitOnChar '/' (fmtDate ⟨y, m, d⟩).data).map
      (fun g => (⟨g⟩ : String)) with
    | [p0, p1, p2] =>
      match pyInt? p0, pyInt? p1, pyInt? p2 with
      | some month, some day, some year =>
        match mkDatetime year month day with
        | .ok dt => Except.ok (some dt)
        | .error .valueError => Except.ok none
        | .error .overflowError => Except.error PyErr.overflowError
      | _, _, _ => Except.ok none
    | _ => Except.ok none) = Except.ok (some ⟨y, m, d⟩)
  rw [hsplit]
  simp only [List.map_cons, List.map_nil]
  have e1 : (⟨(pad2 m.toNat).data⟩ : String) = pad2 m.toNat := rfl
  have e2 : (⟨(pad2 d.toNat).data⟩ : String) = pad2 d.toNat := rfl
  have e3 : (⟨(pad4 y.toNat).data⟩ : String) = pad4 y.toNat := rfl
  rw [e1, e2, e3]
  rw [show pyInt? (pad2 m.toNat) = some m by
      rw [pyInt?_pad2 hm, Int.toNat_of_nonneg (by omega)],
    show pyInt? (pad2 d.toNat) = some d by
      rw [pyInt?_pad2 hd2, Int.toNat_of_nonneg (by omega)],
    show pyInt? (pad4 y.toNat) = some y by
      rw [pyInt?_pad4 hy, Int.toNat_of_nonneg (by omega)]]
  have hfit : (fitsCInt y && fitsCInt m && fitsCInt d) = true := by
    simp only [fitsCInt, Bool.and_eq_true, decide_eq_true_eq]
    omega
  simp only [mkDatetime, hfit, Bool.not_true, Bool.false_eq_true, if_false,
    h, if_true]

theorem parse_date_not_three {s : String}
    (h : (splitOnChar '/' s.data).length ≠ 3) : parse_date s = .ok none := by
  show (match (splitOnChar '/' s.data).map (fun g => (⟨g⟩ : String)) with
    | [p0, p1, p2] =>
      match pyInt? p0, pyInt? p1, pyInt? p2 with
      | some month, some day, some year =>
        match mkDatetime year month day with
        | .ok dt => Except.ok (some dt)
        | .error .valueError => Except.ok none
        | .error .overflowError => Except.error PyErr.overflowError
      | _, _, _ => Except.ok none
    | _ => Except.ok none) = Except.ok none
  rcases hl : splitOnChar '/' s.data with - | ⟨a, - | ⟨b, - | ⟨c, - | ⟨e, rest⟩⟩⟩⟩ <;>
    rw [hl] at h <;> simp at h ⊢

theorem parse_date_part_fails {s : String} {p1 p2 p3 : List Char}
    (hl : splitOnChar '/' s.data = [p1, p2, p3])
    (h : pyInt? ⟨p1⟩ = none ∨ pyInt? ⟨p2⟩ = none ∨ pyInt? ⟨p3⟩ = none) :
    parse_date s = .ok none := by
  show (match (splitOnChar '/' s.data).map (fun g => (⟨g⟩ : String)) with
    | [p0, p1, p2] =>
      match pyInt? p0, pyInt? p1, pyInt? p2 with
      | some month, some day, some year =>
        match mkDatetime year month day with
        | .ok dt => Except.ok (some dt)
        | .error .valueError => Except.ok none
        | .error .overflowError => Except.error PyErr.overflowError
      | _, _, _ => Except.ok none
    | _ => Except.ok none) = Except.ok none
  rw [hl]
  simp only [List.map_cons, List.map_nil]
  rcases h1 : pyInt? ⟨p1⟩ with - | mo <;>
    rcases h2 : pyInt? ⟨p2⟩ with - | dy <;>
    rcases h3 : pyInt? ⟨p3⟩ with - | yr <;>
    simp_all

theorem parse_date_invalid_date {s : String} {p1 p2 p3 : List Char}
    {mo dy yr : Int}
    (hl : splitOnChar '/' s.data = [p1, p2, p3])
    (h1 : pyInt? ⟨p1⟩ = some mo) (h2 : pyInt? ⟨p2⟩ = some dy)
    (h3 : pyInt? ⟨p3⟩ = some yr)
    (hfit : (fitsCInt yr && fitsCInt mo && fitsCInt dy) = true)
    (h : dateOkB yr mo dy = false) :
    parse_date s = .ok none := by
  show (match (splitOnChar '/' s.data).map (fun g => (⟨g⟩ : String)) with
    | [p0, p1, p2] =>
      match pyInt? p0, pyInt? p1, pyInt? p2 with
      | some month, some day, some year =>
        match mkDatetime year month day with
        | .ok dt => Except.ok (some dt)
        | .error .valueError => Except.ok none
        | .error .overflowError => Except.error PyErr.overflowError
      | _, _, _ => Except.ok none
    | _ => Except.ok none) = Except.ok none
  rw [hl]
  have hmk : mkDatetime yr mo dy = .error .valueError := by
    simp only [mkDatetime, hfit, Bool.not_true, Bool.false_eq_true, if_false,
      h, if_false]
  simp only [List.map_cons, List.map_nil, h1, h2, h3, hmk]

theorem parse_date_overflow {s : String} {p1 p2 p3 : List Char}
    {mo dy yr : Int}
    (hl : splitOnChar '/' s.data = [p1, p2, p3])
    (h1 : pyInt? ⟨p1⟩ = some mo) (h2 : pyInt? ⟨p2⟩ = some dy)
    (h3 : pyInt? ⟨p3⟩ = some yr)
    (hfit : (fitsCInt yr && fitsCInt mo && fitsCInt dy) = false) :
    parse_date s = .error .overflowError := by
  show (match (splitOnChar '/' s.data).map (fun g => (⟨g⟩ : String)) with
    | [p0, p1, p2] =>
      match pyInt? p0, pyInt? p1, pyInt? p2 with
      | some month, some day, some year =>
        match mkDatetime year month day with
        | .ok dt => Except.ok (some dt)
        | .error .valueError => Except.ok none
        | .error .overflowError => Except.error PyErr.overflowError
      | _, _, _ => Except.ok none
    | _ => Except.ok none) = Except.error PyErr.overflowError
  rw [hl]
  have hmk : mkDatetime yr mo dy = .error .overflowError := by
    simp only [mkDatetime, hfit, Bool.not_false, if_true]
  simp only [List.map_cons, List.map_nil, h1, h2, h3, hmk]

theorem parse_date_valid {s : String} {dt : Datetime}
    (h : parse_date s = .ok (some dt)) :
    dateOkB dt.year dt.month dt.day = true := by
  rw [show parse_date s = (match (splitOnChar '/' s.data).map
      (fun g => (⟨g⟩ : String)) with
    | [p0, p1, p2] =>
      match pyInt? p0, pyInt? p1, pyInt? p2 with
      | some month, some day, some year =>
        match mkDatetime year month day with
        | .ok dt => Except.ok (some dt)
        | .error .valueError => Except.ok none
        | .error .overflowError => Except.error PyErr.overflowError
      | _, _, _ => Except.ok none
    | _ => Except.ok none) from rfl] at h
  split at h
  · rename_i p0 p1 p2
    split at h
    · rename_i month day year _ _ _
      split at h
      · rename_i dt2 hmk
        rw [mkDatetime] at hmk
        split at hmk
        · cases hmk
        · split at hmk
          · rename_i hok
            cases hmk
            cases h.symm
            simp only [Option.some.injEq] at *
            exact hok
          · cases hmk
      · cases h
      · cases h
    · cases h
  · cases h

theorem parse_date_error_overflow {s : String} {er : PyErr}
    (h : parse_date s = .error er) : er = .overflowError := by
  rw [show parse_date s = (match (splitOnChar '/' s.data).map
      (fun g => (⟨g⟩ : String)) with
    | [p0, p1, p2] =>
      match pyInt? p0, pyInt? p1, pyInt? p2 with
      | some month, some day, some year =>
        match mkDatetime year month day with
        | .ok dt => Except.ok (some dt)
        | .error .valueError => Except.ok none
        | .error .overflowError => Except.error PyErr.overflowError
      | _, _, _ => Except.ok none
    | _ => Except.ok none) from rfl] at h
  split at h
  · rename_i p0 p1 p2
    split at h
    · split at h
      · cases h
      · cases h
      · cases h
        rfl
    · cases h
  · cases h

/-- C8 counterexample: an impossible month beyond the C-int range does
not make `parse_date` return no date — the `datetime()` conversion
raises an uncaught `OverflowError` instead. -/
theorem c8_counterexample :
    pyInt? "99999999999" = some 99999999999 ∧
    dateOkB 2023 99999999999 1 = false ∧
    parse_date "99999999999/01/2023" ≠ .ok none ∧
    parse_date "99999999999/01/2023" = .error .overflowError := by
  refine ⟨by decide, by decide, by decide, by decide⟩

/-- C8 (amended): formatting a valid calendar date as `MM/DD/YYYY` and
parsing it back returns exactly that date; a string with the wrong
number of slash-separated parts or a part that `int()` rejects returns
no date, and so does an impossible month/day/year whose components all
fit a C `int` — but numeric components beyond the C-int range raise
`OverflowError` instead of returning no date. -/
theorem c8_parse_date_behaviour :
    (∀ y m d : Int, dateOkB y m d = true →
      parse_date (fmtDate ⟨y, m, d⟩) = .ok (some ⟨y, m, d⟩)) ∧
    (∀ s : String, (splitOnChar '/' s.data).length ≠ 3 →
      parse_date s = .ok none) ∧
    (∀ (s : String) (p1 p2 p3 : List Char),
      splitOnChar '/' s.data = [p1, p2, p3] →
      pyInt? ⟨p1⟩ = none ∨ pyInt? ⟨p2⟩ = none ∨ pyInt? ⟨p3⟩ = none →
      parse_date s = .ok none) ∧
    (∀ (s : String) (p1 p2 p3 : List Char) (mo dy yr : Int),
      splitOnChar '/' s.data = [p1, p2, p3] →
      pyInt? ⟨p1⟩ = some mo → pyInt? ⟨p2⟩ = some dy → pyInt? ⟨p3⟩ = some yr →
      (fitsCInt yr && fitsCInt mo && fitsCInt dy) = true →
      dateOkB yr mo dy = false → parse_date s = .ok none) ∧
    (∀ (s : String) (p1 p2 p3 : List Char) (mo dy yr : Int),
      splitOnChar '/' s.data = [p1, p2, p3] →
      pyInt? ⟨p1⟩ = some mo → pyInt? ⟨p2⟩ = some dy → pyInt? ⟨p3⟩ = some yr →
      (fitsCInt yr && fitsCInt mo && fitsCInt dy) = false →
      parse_date s = .error .overflowError) :=
  ⟨fun _ _ _ h => parse_date_fmtDate h,
   fun _ h => parse_date_not_three h,
   fun _ _ _ _ hl h => parse_date_part_fails hl h,
   fun _ _ _ _ _ _ _ hl h1 h2 h3 hfit h =>
     parse_date_invalid_date hl h1 h2 h3 hfit h,
   fun _ _ _ _ _ _ _ hl h1 h2 h3 hfit =>
     parse_date_overflow hl h1 h2 h3 hfit⟩

/-- C8 witness: the round trip at 2023-06-01 and three malformed
strings, one for each caught failure mode, plus the overflow case. -/
theorem c8_parse_date_behaviour_witness :
    parse_date (fmtDate ⟨2023, 6, 1⟩) = .ok (some ⟨2023, 6, 1⟩) ∧
    fmtDate ⟨2023, 6, 1⟩ = "06/01/2023" ∧
    parse_date "06-01-2023" = .ok none ∧
    parse_date "06/xx/2023" = .ok none ∧
    parse_date "13/32/2023" = .ok none ∧
    parse_date "01/01/99999999999" = .error .overflowError :=
  ⟨c8_parse_date_behaviour.1 2023 6 1 (by decide),
   by decide,
   c8_parse_date_behaviour.2.1 "06-01-2023" (by decide),
   c8_parse_date_behaviour.2.2.1 "06/xx/2023" "06".data "xx".data "2023".data
     (by decide) (Or.inr (Or.inl (by decide))),
   c8_parse_date_behaviour.2.2.2.1 "13/32/2023" "13".data "32".data "2023".data
     13 32 2023 (by decide) (by decide) (by decide) (by decide) (by decide)
     (by decide),
   c8_parse_date_behaviour.2.2.2.2 "01/01/99999999999" "01".data "01".data
     "99999999999".data 1 1 99999999999 (by decide) (by decide) (by decide)
     (by decide) (by decide)⟩

set_option maxRecDepth 10000

/-! ## C6: degradation and the uncaught overflow path -/

theorem parse_table_entry_some_valid {lines : List String} {cols : ColPositions}
    {e : ChainEntry} (h : parse_table_entry lines cols = .ok (some e)) :
    dateOkB e.date.year e.date.month e.date.day = true := by
  rw [parse_table_entry.eq_def] at h
  split at h
  · simp at h
  · dsimp only at h
    split at h
    · split at h
      · simp at h
      · simp at h
      · rename_i parsed_date hpd
        simp only [Except.ok.injEq, Option.some.injEq] at h
        subst h
        exact parse_date_valid hpd
    · simp at h

theorem parse_table_entry_error {lines : List String} {cols : ColPositions}
    {er : PyErr} (h : parse_table_entry lines cols = .error er) :
    er = .overflowError := by
  rw [parse_table_entry.eq_def] at h
  split at h
  · simp at h
  · dsimp only at h
    split at h
    · split at h
      · rename_i e2 hpd
        simp only [Except.error.injEq] at h
        subst h
        exact parse_date_error_overflow hpd
      · simp at h
      · simp at h
    · simp at h

theorem flushEntry_ok_valid {cur : List String} {cols : ColPositions}
    {l : List ChainEntry} {e : ChainEntry} (h : flushEntry cur cols = .ok l)
    (he : e ∈ l) : dateOkB e.date.year e.date.month e.date.day = true := by
  rw [flushEntry] at h
  split at h
  · simp only [Except.ok.injEq] at h
    subst h
    exact absurd he (List.not_mem_nil e)
  · split at h
    · simp at h
    · rename_i entry hpte
      simp only [Except.ok.injEq] at h
      subst h
      rcases entry with - | e2
      · exact absurd he (List.not_mem_nil e)
      · rw [Option.toList_some] at he
        rw [List.mem_singleton.mp he]
        exact parse_table_entry_some_valid hpte

theorem flushEntry_error {cur : List String} {cols : ColPositions}
    {er : PyErr} (h : flushEntry cur cols = .error er) :
    er = .overflowError := by
  rw [flushEntry] at h
  split at h
  · simp at h
  · split at h
    · rename_i e2 hpte
      simp only [Except.error.injEq] at h
      subst h
      exact parse_table_entry_error hpte
    · simp at h

theorem tableLoop_ok_valid {cols : ColPositions} :
    ∀ (lines : List String) (in_table : Bool) (cur : List String)
      (l : List ChainEntry) (e : ChainEntry),
      tableLoop cols in_table cur lines = .ok l → e ∈ l →
      dateOkB e.date.year e.date.month e.date.day = true := by
  intro lines
  induction lines with
  | nil =>
    intro _ _ l e h he
    simp only [tableLoop, Except.ok.injEq] at h
    subst h
    exact absurd he (List.not_mem_nil e)
  | cons line rest ih =>
    intro in_table cur l e h he
    simp only [tableLoop] at h
    split at h
    · split at h
      · exact ih _ _ _ e h he
      · exact flushEntry_ok_valid h he
    · split at h
      · exact ih _ _ _ e h he
      · split at h
        · split at h
          · simp at h
          · rename_i entries hflush
            split at h
            · simp at h
            · rename_i more hloop
              simp only [Except.ok.injEq] at h
              subst h
              rcases List.mem_append.mp he with h2 | h2
              · exact flushEntry_ok_valid hflush h2
              · exact ih _ _ _ e hloop h2
        · exact ih _ _ _ e h he

theorem tableLoop_error {cols : ColPositions} :
    ∀ (lines : List String) (in_table : Bool) (cur : List String) (er : PyErr),
      tableLoop cols in_table cur lines = .error er → er = .overflowError := by
  intro lines
  induction lines with
  | nil =>
    intro _ _ er h
    simp only [tableLoop] at h
    exact absurd h (fun he => Except.noConfusion he)
  | cons line rest ih =>
    intro in_table cur er h
    simp only [tableLoop] at h
    split at h
    · split at h
      · exact ih _ _ er h
      · exact flushEntry_error h
    · split at h
      · exact ih _ _ er h
      · split at h
        · split at h
          · rename_i e2 hflush
            simp only [Except.error.injEq] at h
            subst h
            exact flushEntry_error hflush
          · split at h
            · rename_i e2 hloop
              simp only [Except.error.injEq] at h
              subst h
              exact ih _ _ _ hloop
            · simp at h
        · exact ih _ _ er h

theorem fallbackEntry6_some_valid {line : String} {caps : Caps} {e : ChainEntry}
    (h : fallbackEntry6 line caps = .ok (some e)) :
    dateOkB e.date.year e.date.month e.date.day = true := by
  rw [fallbackEntry6] at h
  split at h
  · simp at h
  · simp at h
  · rename_i parsed_date hpd
    simp only [Except.ok.injEq, Option.some.injEq] at h
    subst h
    exact parse_date_valid hpd

theorem fallbackEntry6_error {line : String} {caps : Caps} {er : PyErr}
    (h : fallbackEntry6 line caps = .error er) : er = .overflowError := by
  rw [fallbackEntry6] at h
  split at h
  · rename_i e2 hpd
    simp only [Except.error.injEq] at h
    subst h
    exact parse_date_error_overflow hpd
  · simp at h
  · simp at h

theorem fallbackEntry5_some_valid {line : String} {caps : Caps} {e : ChainEntry}
    (h : fallbackEntry5 line caps = .ok (some e)) :
    dateOkB e.date.year e.date.month e.date.day = true := by
  rw [fallbackEntry5] at h
  split at h
  · simp at h
  · simp at h
  · rename_i parsed_date hpd
    simp only [Except.ok.injEq, Option.some.injEq] at h
    subst h
    exact parse_date_valid hpd

theorem fallbackEntry5_error {line : String} {caps : Caps} {er : PyErr}
    (h : fallbackEntry5 line caps = .error er) : er = .overflowError := by
  rw [fallbackEntry5] at h
  split at h
  · rename_i e2 hpd
    simp only [Except.error.injEq] at h
    subst h
    exact parse_date_error_overflow hpd
  · simp at h
  · simp at h

theorem fallbackLineEntry_some_valid {l : String} {e : ChainEntry}
    (h : fallbackLineEntry l = .ok (some e)) :
    dateOkB e.date.year e.date.month e.date.day = true := by
  rw [fallbackLineEntry] at h
  split at h
  · simp at h
  · split at h
    · exact fallbackEntry6_some_valid h
    · split at h
      · exact fallbackEntry5_some_valid h
      · simp at h

theorem fallbackLineEntry_error {l : String} {er : PyErr}
    (h : fallbackLineEntry l = .error er) : er = .overflowError := by
  rw [fallbackLineEntry] at h
  split at h
  · simp at h
  · split at h
    · exact fallbackEntry6_error h
    · split at h
      · exact fallbackEntry5_error h
      · simp at h

theorem fallbackLoop_ok_valid :
    ∀ (lines : List String) (l : List ChainEntry) (e : ChainEntry),
      fallbackLoop lines = .ok l → e ∈ l →
      dateOkB e.date.year e.date.month e.date.day = true := by
  intro lines
  induction lines with
  | nil =>
    intro l e h he
    simp only [fallbackLoop, Except.ok.injEq] at h
    subst h
    exact absurd he (List.not_mem_nil e)
  | cons line rest ih =>
    intro l e h he
    simp only [fallbackLoop] at h
    split at h
    · simp at h
    · exact ih _ e h he
    · rename_i entry hline
      split at h
      · simp at h
      · rename_i entries hloop
        simp only [Except.ok.injEq] at h
        subst h
        rcases List.mem_cons.mp he with rfl | h2
        · exact fallbackLineEntry_some_valid hline
        · exact ih _ e hloop h2

theorem fallbackLoop_error :
    ∀ (lines : List String) (er : PyErr),
      fallbackLoop lines = .error er → er = .overflowError := by
  intro lines
  induction lines with
  | nil =>
    intro er h
    simp only [fallbackLoop] at h
    exact absurd h (fun he => Except.noConfusion he)
  | cons line rest ih =>
    intro er h
    simp only [fallbackLoop] at h
    split at h
    · rename_i e2 hline
      simp only [Except.error.injEq] at h
      subst h
      exact fallbackLineEntry_error hline
    · exact ih er h
    · split at h
      · rename_i e2 hloop
        simp only [Except.error.injEq] at h
        subst h
        exact ih _ hloop
      · simp at h

theorem fallbackLoop_length :
    ∀ (lines : List String) (l : List ChainEntry),
      fallbackLoop lines = .ok l → l.length ≤ lines.length := by
  intro lines
  induction lines with
  | nil =>
    intro l h
    simp only [fallbackLoop, Except.ok.injEq] at h
    subst h
    exact le_refl _
  | cons line rest ih =>
    intro l h
    simp only [fallbackLoop] at h
    split at h
    · simp at h
    · exact le_trans (ih _ h) (Nat.le_succ _)
    · split at h
      · simp at h
      · rename_i entries hloop
        simp only [Except.ok.injEq] at h
        subst h
        exact Nat.succ_le_succ (ih _ hloop)

theorem fallback_ok_valid {text : String} {l : List ChainEntry} {e : ChainEntry}
    (h : parse_chain_text_regex_fallback text = .ok l) (he : e ∈ l) :
    dateOkB e.date.year e.date.month e.date.day = true := by
  rw [parse_chain_text_regex_fallback] at h
  exact fallbackLoop_ok_valid _ _ e h he

theorem fallback_error {text : String} {er : PyErr}
    (h : parse_chain_text_regex_fallback text = .error er) :
    er = .overflowError := by
  rw [parse_chain_text_regex_fallback] at h
  exact fallbackLoop_error _ er h

theorem parse_chain_text_ok_valid {text : String} {l : List ChainEntry}
    {e : ChainEntry} (h : parse_chain_text text = .ok l) (he : e ∈ l) :
    dateOkB e.date.year e.date.month e.date.day = true := by
  rw [parse_chain_text] at h
  split at h
  · exact fallback_ok_valid h he
  · split at h
    · exact fallback_ok_valid h he
    · exact tableLoop_ok_valid _ _ _ _ e h he

theorem parse_chain_text_error {text : String} {er : PyErr}
    (h : parse_chain_text text = .error er) : er = .overflowError := by
  rw [parse_chain_text] at h
  split at h
  · exact fallback_error h
  · split at h
    · exact fallback_error h
    · exact tableLoop_error _ _ _ er h

/-- A table whose row has a DATED field that matches the ten-character
date prefix but carries a year beyond the C-int range. -/
def ovHdrLine : String :=
  "FILED   GRANTOR        GRANTEE        INSTRUMENT     DATED               RECORDING"

/-- The row carrying the overflowing date string. -/
def ovRowLine : String :=
  "        SMITH          JONES          LEASE          01/01/99999999999   123-456"

/-- A complete table text whose only row carries the overflowing date;
the final newline yields the blank line that flushes the entry into
`parse_table_entry` and hence into `parse_date`. -/
def overflowTableText : String :=
  "X\n" ++ ovHdrLine ++ "\n--------------------\n" ++ ovRowLine ++ "\n"

/-- C6 counterexample: the pipeline does raise.  A date string whose
year exceeds the C-int range reaches `datetime()`, whose
`OverflowError` is not in the `except (ValueError, IndexError)` tuple:
`parse_date` propagates it, and it is reachable through
`parse_chain_text` because the DATED column check only requires a
ten-character date prefix. -/
theorem c6_counterexample :
    parse_date "01/01/99999999999" = .error .overflowError ∧
    parse_chain_text overflowTableText = .error .overflowError :=
  ⟨by decide, by decide⟩

/-- C6 (amended): the only exception that escapes the text pipeline is
the `OverflowError` of `datetime()` on component values beyond the
C-int range; everything else degrades by dropping candidates —
`parse_date` otherwise returns no date or a valid date, every record a
normal return carries has a valid parsed date, and the fallback emits
at most one record per preprocessed line. -/
theorem c6_pipeline_degradation :
    (∀ s : String, parse_date s = .ok none ∨
      (∃ dt, parse_date s = .ok (some dt) ∧
        dateOkB dt.year dt.month dt.day = true) ∨
      parse_date s = .error .overflowError) ∧
    (∀ (text : String) (er : PyErr), parse_chain_text text = .error er →
      er = .overflowError) ∧
    (∀ (text : String) (l : List ChainEntry) (e : ChainEntry),
      parse_chain_text text = .ok l → e ∈ l →
      dateOkB e.date.year e.date.month e.date.day = true) ∧
    (∀ (text : String) (l : List ChainEntry),
      parse_chain_text_regex_fallback text = .ok l →
      l.length ≤ (pyLines (preprocess_chain_text text)).length) := by
  refine ⟨fun s => ?_, fun text er h => parse_chain_text_error h,
    fun text l e h he => parse_chain_text_ok_valid h he, fun text l h => ?_⟩
  · rcases h : parse_date s with er | r
    · have h2 := parse_date_error_overflow h
      subst h2
      exact Or.inr (Or.inr rfl)
    · rcases r with - | dt
      · exact Or.inl rfl
      · exact Or.inr (Or.inl ⟨dt, rfl, parse_date_valid h⟩)
  · rw [parse_chain_text_regex_fallback] at h
    exact fallbackLoop_length _ _ h

/-- C6 witness: the degradation guarantees applied at concrete inputs,
discharging each hypothesis there. -/
theorem c6_pipeline_degradation_witness :
    (parse_date "99/99/9999" = .ok none ∨
      (∃ dt, parse_date "99/99/9999" = .ok (some dt) ∧
        dateOkB dt.year dt.month dt.day = true) ∨
      parse_date "99/99/9999" = .error .overflowError) ∧
    PyErr.overflowError = PyErr.overflowError ∧
    (∀ e ∈ ([] : List ChainEntry),
      dateOkB e.date.year e.date.month e.date.day = true) ∧
    ([] : List ChainEntry).length ≤
      (pyLines (preprocess_chain_text "\x00garbage\nGRANTOR?\n01/02")).length :=
  ⟨c6_pipeline_degradation.1 "99/99/9999",
   c6_pipeline_degradation.2.1 overflowTableText .overflowError (by decide),
   fun e he => c6_pipeline_degradation.2.2.1 "\x00garbage\nGRANTOR?\n01/02"
     [] e (by decide) he,
   c6_pipeline_degradation.2.2.2 "\x00garbage\nGRANTOR?\n01/02" []
     (by decide)⟩

/-! ## C1 and C10: header handling and end-of-input behaviour -/

theorem findHeaderAux_none_iff :
    ∀ (lines : List String) (i : Nat), findHeaderAux i lines = none ↔
      ∀ line ∈ lines, (pyContains "GRANTOR" line && pyContains "GRANTEE" line &&
        pyContains "INSTRUMENT" line) = false := by
  intro lines
  induction lines with
  | nil => intro i; simp [findHeaderAux]
  | cons line rest ih =>
    intro i
    by_cases hp : (pyContains "GRANTOR" line && pyContains "GRANTEE" line &&
        pyContains "INSTRUMENT" line) = true
    · simp only [findHeaderAux, hp, if_true]
      constructor
      · intro h; cases h
      · intro h
        exact absurd hp (by simp [h line (List.mem_cons_self line rest)])
    · have hp2 : (pyContains "GRANTOR" line && pyContains "GRANTEE" line &&
          pyContains "INSTRUMENT" line) = false := by
        simpa using hp
      simp only [findHeaderAux, hp2, Bool.false_eq_true, if_false, ih (i + 1),
        List.mem_cons]
      constructor
      · rintro h x (rfl | hx)
        · exact hp2
        · exact h x hx
      · intro h x hx
        exact h x (Or.inr hx)

/-- C1 (amended): the fallback handoff of `parse_chain_text`, as the
code implements it — the regex fallback runs exactly when no line holds
all three header tokens or when the first such line is line 0 (the
integer-falsiness artifact), and otherwise the column-table loop output
is returned even when it is empty. -/
theorem c1_fallback_characterization (text : String) :
    (findHeaderAux 0 (pyLines text) = none ↔
      ∀ line ∈ pyLines text, (pyContains "GRANTOR" line &&
        pyContains "GRANTEE" line && pyContains "INSTRUMENT" line) = false) ∧
    (findHeaderAux 0 (pyLines text) = none →
      parse_chain_text text = parse_chain_text_regex_fallback text) ∧
    (∀ cols, findHeaderAux 0 (pyLines text) = some (0, cols) →
      parse_chain_text text = parse_chain_text_regex_fallback text) ∧
    (∀ i cols, findHeaderAux 0 (pyLines text) = some (i, cols) → i ≠ 0 →
      parse_chain_text text =
        tableLoop cols false [] ((pyLines text).drop (i + 1))) := by
  refine ⟨findHeaderAux_none_iff (pyLines text) 0, fun h => ?_,
    fun cols h => ?_, fun i cols h hi => ?_⟩
  · rw [parse_chain_text, h]
  · rw [parse_chain_text, h]
    rfl
  · rw [parse_chain_text, h]
    simp [hi]

/-- The record list of a normally-returning parse (empty for an
exception), used to state concrete record counts. -/
def okEntries (r : Except PyErr (List ChainEntry)) : List ChainEntry :=
  match r with
  | .ok l => l
  | .error _ => []

/-- The column-aligned table header used by the concrete inputs. -/
def hdrLine : String :=
  "FILED   GRANTOR        GRANTEE        INSTRUMENT     DATED        RECORDING"

/-- A table row aligned under `hdrLine` whose instrument (LEASE) matches
no fallback pattern keyword. -/
def rowLine : String :=
  "        SMITH          JONES          LEASE          01/02/2023   123-456"

/-- A separator line. -/
def sepLine : String := "--------------------"

/-- A complete table whose header is the very first line of the text. -/
def headerFirstText : String :=
  hdrLine ++ "\n" ++ sepLine ++ "\n" ++ rowLine ++ "\n\n" ++ sepLine

/-- A text whose header is at index 1 but which has no separator line,
followed by a line that only the regex fallback could parse. -/
def headerNoSepText : String :=
  "X\nGRANTOR GRANTEE INSTRUMENT\n01/02/2023 SMITH JONES WARRANTY DEED 123-456"

/-- C1 witness: the characterization applied to the no-separator text,
whose header at index 1 routes through the (empty) column-table loop. -/
theorem c1_fallback_characterization_witness :
    findHeaderAux 0 (pyLines headerNoSepText) =
      some (1, { grantor := 0, grantee := 8, instrument := 16,
                 dated := -1, recording := -1 }) ∧
    parse_chain_text headerNoSepText =
      tableLoop { grantor := 0, grantee := 8, instrument := 16,
                  dated := -1, recording := -1 } false []
        ((pyLines headerNoSepText).drop 2) :=
  ⟨by decide,
   (c1_fallback_characterization headerNoSepText).2.2.2 1
     { grantor := 0, grantee := 8, instrument := 16,
       dated := -1, recording := -1 } (by decide) (by decide)⟩

/-- C1 counterexample: the claim fails on the code in two ways.  A
header line that is the very first line is not used: the text below has
its header at index 0, the column loop over its table would produce one
record, yet `parse_chain_text` routes through the regex fallback and
returns nothing (shifting the same table down one line recovers the
record).  And a header at positive index suppresses the fallback even
when the column loop yields no records: the no-separator text returns
the empty list although the fallback would find a record. -/
theorem c1_counterexample :
    findHeaderAux 0 (pyLines headerFirstText) =
      some (0, { grantor := 8, grantee := 23, instrument := 38,
                 dated := 53, recording := 66 }) ∧
    parse_chain_text headerFirstText =
      parse_chain_text_regex_fallback headerFirstText ∧
    parse_chain_text headerFirstText = .ok [] ∧
    (okEntries (parse_chain_text ("\n" ++ headerFirstText))).length = 1 ∧
    parse_chain_text headerNoSepText = .ok [] ∧
    (okEntries (parse_chain_text_regex_fallback headerNoSepText)).length = 1 := by
  refine ⟨by decide, by decide, by decide, by decide, by decide, by decide⟩

/-- A table whose entry lines run to the end of the input: no blank line
and no second separator line ever flush them. -/
def trailingEntryText : String :=
  "X\n" ++ hdrLine ++ "\n" ++ sepLine ++ "\n" ++ rowLine

/-- C10: when the input ends while entry lines are still accumulated
(no blank line and no second separator before end-of-input), the final
accumulated entry is silently discarded — in general the loop returns no
record for a tail of non-boundary lines, and concretely the text above
yields nothing although appending one final newline (which yields a
blank line, flushing the entry) produces the record. -/
theorem c10_trailing_entry_discarded :
    (∀ (cols : ColPositions) (cur tl : List String),
      (∀ l ∈ tl, isSepLine l = false ∧ pyStrip l ≠ "") →
      tableLoop cols true cur tl = .ok []) ∧
    parse_chain_text trailingEntryText = .ok [] ∧
    (okEntries (parse_chain_text (trailingEntryText ++ "\n"))).length = 1 := by
  refine ⟨fun cols cur tl => ?_, by decide, by decide⟩
  induction tl generalizing cur with
  | nil => intro _; simp [tableLoop]
  | cons l rest ih =>
    intro h
    have hl := h l (List.mem_cons_self l rest)
    simp only [tableLoop, hl.1, Bool.false_eq_true, if_false, Bool.not_true,
      beq_iff_eq, hl.2, if_true]
    exact ih _ (fun x hx => h x (List.mem_cons_of_mem l hx))

/-- C10 witness: the general discard statement at a concrete loop state. -/
theorem c10_trailing_entry_discarded_witness :
    tableLoop { grantor := 8, grantee := 23, instrument := 38,
                dated := 53, recording := 66 } true [rowLine]
      ["SOME CONTINUATION", "ANOTHER LINE"] = .ok [] :=
  c10_trailing_entry_discarded.1 _ [rowLine]
    ["SOME CONTINUATION", "ANOTHER LINE"] (by decide)

/-! ## C4: the matrix-mode entry point -/

/-- C4 (spec-modelled): `extract_chain_from_tables` concatenates the
per-matrix record lists in encounter order, a table whose header does
not resolve all five required columns contributes nothing (skipped
without error), and a resolving table yields exactly its per-row
records. -/
theorem c4_extract_from_tables :
    (∀ tables : List (List (List (Option String))),
      extract_chain_from_tables tables =
        (tables.map parse_chain_table_matrix).flatten) ∧
    (∀ (header : List (Option String)) (rows : List (List (Option String))),
      resolveCols (header.map normHeaderCell) = none →
      parse_chain_table_matrix (header :: rows) = []) ∧
    (∀ (header : List (Option String)) (rows : List (List (Option String)))
      (cols : MatrixCols),
      resolveCols (header.map normHeaderCell) = some cols →
      parse_chain_table_matrix (header :: rows) =
        rows.filterMap (rowEntry cols header.length)) := by
  refine ⟨fun tables => ?_, fun header rows h => ?_, fun header rows cols h => ?_⟩
  · induction tables with
    | nil => rfl
    | cons t ts ih => simp [extract_chain_from_tables, ih]
  · rw [parse_chain_table_matrix, h]
  · rw [parse_chain_table_matrix, h]

/-- A chain-table cell matrix used by the C4 witness. -/
def goodMatrix : List (List (Option String)) :=
  [[some "GRANTOR", some "GRANTEE", some "INSTRUMENT", some "DATED",
    some "RECORDING"],
   [some "SMITH", some "JONES", some "WARRANTY DEED", some "01/02/2023",
    some "123-456"]]

/-- A non-chain cell matrix (header unresolved) used by the C4 witness. -/
def skippedMatrix : List (List (Option String)) :=
  [[some "PARCEL", some "VALUE"], [some "A-1", some "100"]]

/-- C4 witness: the entry point applied to one resolving and one
skipped table. -/
theorem c4_extract_from_tables_witness :
    extract_chain_from_tables [skippedMatrix, goodMatrix] =
      ([skippedMatrix, goodMatrix].map parse_chain_table_matrix).flatten ∧
    resolveCols ((skippedMatrix.headD []).map normHeaderCell) = none ∧
    parse_chain_table_matrix skippedMatrix = [] ∧
    (extract_chain_from_tables [skippedMatrix, goodMatrix]).length = 1 :=
  ⟨c4_extract_from_tables.1 [skippedMatrix, goodMatrix],
   by decide,
   c4_extract_from_tables.2.1 [some "PARCEL", some "VALUE"]
     [[some "A-1", some "100"]] (by decide),
   by decide⟩
